import Mathlib

/-!
Verification development for the autonomous driver loop implemented in
src/codex-rs/cli/src/main.rs.  The Rust code is shallowly embedded: pure
helpers become Lean functions on strings (represented through their
character lists, which coincides with Rust byte indexing on the ASCII data
involved), the event demultiplexer becomes a step function over an
explicit state, the outer loop body becomes a state-passing function,
and every external effect (file system, HTTP driver model, tokenizer)
is a parameter supplied through an environment record.
-/

namespace Artemis

/-! ### String primitives

Models of the Rust standard-library string operations used by main.rs.
All subjects that matter to the verified properties are ASCII, so
character-list indices agree with Rust byte indices and ASCII lowercasing
agrees with str::to_lowercase. -/

/-- Lowercasing of a character list, modelling str::to_lowercase on ASCII data. -/
def lowerList (s : List Char) : List Char := s.map Char.toLower

/-- Models str::trim: whitespace removed from both ends. -/
def trimList (s : List Char) : List Char :=
  ((s.dropWhile Char.isWhitespace).reverse.dropWhile Char.isWhitespace).reverse

/-- Models str::trim on strings. -/
def rustTrim (s : String) : String := ⟨trimList s.data⟩

/-- Models str::starts_with on character lists. -/
def startsList (pat s : List Char) : Bool := List.isPrefixOf pat s

/-- Models str::ends_with on character lists. -/
def endsList (pat s : List Char) : Bool := List.isPrefixOf pat.reverse s.reverse

/-- Case-insensitive starts-with: to_lowercase() applied to both sides before
the prefix test. -/
def startsWithCI (s pat : String) : Bool := startsList (lowerList pat.data) (lowerList s.data)

/-- Models str::contains for substring search. -/
def infixList (pat : List Char) : List Char → Bool
  | [] => pat.isEmpty
  | c :: rest => startsList pat (c :: rest) || infixList pat rest

/-- Case-insensitive substring test, as in response.to_lowercase().contains(pat). -/
def containsCI (s pat : String) : Bool := infixList (lowerList pat.data) (lowerList s.data)

/-- Models str::find: character index of the first occurrence of pat. -/
def findList (pat : List Char) : List Char → Option Nat
  | [] => if pat.isEmpty then some 0 else none
  | c :: rest =>
    if startsList pat (c :: rest) then some 0 else (findList pat rest).map (fun n => n + 1)

/-- Replacement scan with explicit fuel.  Each step consumes one unit of fuel
and at least one character, so fuel equal to the subject length performs a
complete scan.  Models str::replace: all occurrences, left to right,
non-overlapping; an empty pattern is treated as a no-op. -/
def replaceFuel (pat rep : List Char) : Nat → List Char → List Char
  | 0, s => s
  | Nat.succ _, [] => []
  | Nat.succ fuel, c :: rest =>
    if !pat.isEmpty && startsList pat (c :: rest) then
      rep ++ replaceFuel pat rep fuel ((c :: rest).drop pat.length)
    else
      c :: replaceFuel pat rep fuel rest

/-- Models String::replace(pat, rep), replacing every occurrence. -/
def replaceAll (s pat rep : String) : String :=
  ⟨replaceFuel pat.data rep.data s.data.length s.data⟩

/-- Boolean membership in a list of strings, modelling HashSet::contains and
Vec iteration membership checks. -/
def memStr (x : String) : List String → Bool
  | [] => false
  | y :: ys => if x = y then true else memStr x ys

/-- Lexicographic comparison of character lists, modelling str ordering. -/
def listLeChar : List Char → List Char → Bool
  | [], _ => true
  | _ :: _, [] => false
  | a :: as, b :: bs => if a < b then true else if b < a then false else listLeChar as bs

/-- Models String ordering used by Vec::sort on paths. -/
def strLe (a b : String) : Bool := listLeChar a.data b.data

/-- Stable insertion into a sorted list of strings. -/
def insertSorted (x : String) : List String → List String
  | [] => [x]
  | y :: ys => if strLe x y then x :: y :: ys else y :: insertSorted x ys

/-- Stable sort of strings, modelling note_files.sort(). -/
def sortStrings (l : List String) : List String := l.foldr insertSorted []

/-! ### parse_approval_response (main.rs lines 1514-1554) -/

/-- Reasoning extraction for the APPROVE branch (main.rs lines 1520-1528):
text after the first " - ", else after the first literal "APPROVE", else
after the first literal "approve", else a fixed message. -/
def approveReasoning (r : List Char) : List Char :=
  match findList " - ".data r with
  | some pos => trimList (r.drop (pos + 3))
  | none =>
    match findList "APPROVE".data r with
    | some pos => trimList (r.drop (pos + 7))
    | none =>
      match findList "approve".data r with
      | some pos => trimList (r.drop (pos + 7))
      | none => "No reasoning provided".data

/-- Reasoning extraction for the DENY branch (main.rs lines 1532-1541). -/
def denyReasoning (r : List Char) : List Char :=
  match findList " - ".data r with
  | some pos => trimList (r.drop (pos + 3))
  | none =>
    match findList "DENY".data r with
    | some pos => trimList (r.drop (pos + 4))
    | none =>
      match findList "deny".data r with
      | some pos => trimList (r.drop (pos + 4))
      | none => "No reasoning provided".data

/-- Embeds parse_approval_response (main.rs lines 1514-1554).  The input is
trimmed; a lowercased leading "approve" yields true, a lowercased leading
"deny" yields false, anything else is auto-denied. -/
def parse_approval_response (response : String) : Bool × String :=
  let r := trimList response.data
  if startsList "approve".data (lowerList r) then
    (true, String.mk (approveReasoning r))
  else if startsList "deny".data (lowerList r) then
    (false, String.mk (denyReasoning r))
  else
    (false, "Unclear response format - auto-denied for safety: " ++ String.mk r)

/-! ### JSON fragments and supervisor tool calls -/

/-- The JSON shapes that flow through the supervisor tool plumbing.  The
driver stream delivers tool arguments as a JSON string (ResponseItem
FunctionCall arguments), and object payloads are modelled as string-valued
objects; value[key].as_str() on a non-object yields None, which is the
behaviour main.rs relies on. -/
inductive Json
  | null
  | jstr (s : String)
  | jobj (kvs : List (String × String))
deriving DecidableEq, Repr

/-- Models value[key].as_str(): only objects holding a string at the key
produce a value. -/
def Json.getStr : Json → String → Option String
  | .jobj kvs, k => kvs.lookup k
  | _, _ => none

/-- Serde-style serialization of the modelled JSON fragment (used for both
to_string and to_string_pretty; the whitespace difference is immaterial to
every stated property). -/
def Json.compact : Json → String
  | .null => "null"
  | .jstr s => "\"" ++ s ++ "\""
  | .jobj kvs =>
    "\x7b" ++ String.intercalate "," (kvs.map (fun kv => "\"" ++ kv.1 ++ "\":\"" ++ kv.2 ++ "\"")) ++ "\x7d"

/-- A tool call reported by the driver model stream (main.rs lines 1788-1802). -/
structure DriverToolCall where
  id : String
  name : String
  arguments : Json
deriving DecidableEq, Repr

/-- A supervisor tool result entry (tool_call_id, tool_name, content). -/
structure ToolResult where
  tool_call_id : String
  tool_name : String
  content : String
deriving DecidableEq, Repr

/-- The file-system and process environment visible to the supervisor tools:
notes directory creation and writes, directory listing and reads,
the SLACK_WEBHOOK_URL variable and the curl transport, and the two
timestamp renderings used for note contents and note filenames. -/
structure SupervisorEnv where
  createNotesDir : Except String Unit
  nowHuman : String
  nowCompact : String
  writeNote : String → String → Except String Unit
  notesDirList : Except String (List String)
  readNoteFile : String → Except String String
  slackWebhookUrl : Option String
  curl : String → String → Except String (String × String)

/-- Models Path::extension() == "txt" for the note filter: the name ends in
".txt". -/
def extIsTxt (p : String) : Bool := endsList ".txt".data p.data

/-- The read_notes content (main.rs lines 1973-2025): list the notes
directory, keep .txt entries, sort by filename, concatenate the contents,
inserting a newline after any note that does not end with one; a missing or
empty directory yields "No notes yet.". -/
def readNotesContent (env : SupervisorEnv) : String :=
  match env.notesDirList with
  | .error _ => "No notes yet."
  | .ok entries =>
    let files := sortStrings (entries.filter extIsTxt)
    if files.isEmpty then "No notes yet."
    else
      files.foldl (fun acc path =>
        match env.readNoteFile path with
        | .ok c => acc ++ c ++ (if endsList "\n".data c.data then "" else "\n")
        | .error e => acc ++ "Error reading " ++ path ++ ": " ++ e ++ "\n") ""

/-- The slack_webhook JSON payload (main.rs lines 2038-2048). -/
def slackPayload (args : Json) : String :=
  Json.compact (.jobj [
    ("title", (args.getStr "title").getD ""),
    ("asset", (args.getStr "asset").getD ""),
    ("vuln_type", (args.getStr "vuln_type").getD ""),
    ("severity", (args.getStr "severity").getD ""),
    ("description", (args.getStr "description").getD ""),
    ("repro_steps", (args.getStr "repro_steps").getD ""),
    ("impact", (args.getStr "impact").getD ""),
    ("cleanup", (args.getStr "cleanup").getD "")])

/-- Processing of one supervisor tool call (the match arms of
handle_supervisor_tool_calls, main.rs lines 1945-2116).  Returns the tool
result record together with the session_finished contribution of this call. -/
def superviseOne (env : SupervisorEnv) (tc : DriverToolCall) : ToolResult × Bool :=
  if tc.name = "write_note" then
    let content := (tc.arguments.getStr "content").getD ""
    let noteContent := "[" ++ env.nowHuman ++ "] " ++ content ++ "\n"
    let filename := "note_" ++ env.nowCompact ++ ".txt"
    match env.writeNote filename noteContent with
    | .ok _ => (⟨tc.id, tc.name, "Note written successfully to " ++ filename⟩, false)
    | .error e => (⟨tc.id, tc.name, "Error writing note: " ++ e⟩, false)
  else if tc.name = "read_notes" then
    (⟨tc.id, tc.name, readNotesContent env⟩, false)
  else if tc.name = "slack_webhook" then
    match env.slackWebhookUrl with
    | some url =>
      match env.curl (slackPayload tc.arguments) url with
      | .ok out =>
        (⟨tc.id, tc.name, "Slack webhook posted: stdout=" ++ out.1 ++ ", stderr=" ++ out.2⟩, false)
      | .error e => (⟨tc.id, tc.name, "Error posting to Slack webhook: " ++ e⟩, false)
    | none =>
      (⟨tc.id, tc.name, "SLACK_WEBHOOK_URL not configured - skipping Slack notification"⟩, false)
  else if tc.name = "finished" then
    let reason := (tc.arguments.getStr "reason").getD "No reason provided"
    (⟨tc.id, tc.name, "✅ Autonomous session finished: " ++ reason⟩, true)
  else
    (⟨tc.id, tc.name, "Unknown tool: " ++ tc.name⟩, false)

/-- Embeds handle_supervisor_tool_calls (main.rs lines 1921-2120): ensure the
notes directory exists (failure is propagated), then fold over the tool
calls accumulating one result per call and the session_finished flag. -/
def handle_supervisor_tool_calls (env : SupervisorEnv) (tool_calls : List DriverToolCall) :
    Except String (List ToolResult × Bool) :=
  match env.createNotesDir with
  | .error _ => .error "Failed to create notes directory"
  | .ok _ =>
    .ok (tool_calls.foldl (fun acc tc =>
      let r := superviseOne env tc
      (acc.1 ++ [r.1], acc.2 || r.2)) ([], false))

/-! ### Driver client (generate_user_prompt, main.rs lines 1588-1919) -/

/-- The external driver model, as a pair of response oracles keyed by the
prompt: the primary streaming call (text plus tool-call intents) and the
follow-up call made after supervisor tools ran. -/
structure Driver where
  primary : String → Except String (String × List DriverToolCall)
  followUp : String → Except String String

/-- Embeds generate_user_prompt (main.rs lines 1588-1919).  A primary stream
failure is propagated.  When the model made tool calls, the supervisor tools
run (their finished flag is bound to the discarded _finished, exactly as in
the source) and the follow-up text is returned trimmed, with no emptiness
check.  Without tool calls, an empty raw response is an error, otherwise the
trimmed text is returned. -/
def generate_user_prompt (env : SupervisorEnv) (d : Driver) (driver_prompt : String) :
    Except String (String × List ToolResult) :=
  match d.primary driver_prompt with
  | .error e => .error e
  | .ok (response_text, tool_calls) =>
    if !tool_calls.isEmpty then
      match handle_supervisor_tool_calls env tool_calls with
      | .error e => .error e
      | .ok (tool_results, _finished) =>
        match d.followUp driver_prompt with
        | .error e => .error e
        | .ok follow_up_text => .ok (rustTrim follow_up_text, tool_results)
    else if response_text = "" then
      .error "No response received from external LLM"
    else
      .ok (rustTrim response_text, [])

/-! ### Template substitution (main.rs lines 1439-1512) -/

/-- Embeds inject_template_variables: literal, non-recursive, all-occurrence
substitution of the two loop variables. -/
def inject_template_variables (template config_yaml context : String) : String :=
  replaceAll (replaceAll template "{config_yaml}" config_yaml) "{context}" context

/-- Debug rendering of a command vector, modelling format of a Vec of
strings with the Debug formatter. -/
def fmtCommandDebug (command : List String) : String :=
  "[" ++ String.intercalate ", " (command.map (fun c => "\"" ++ c ++ "\"")) ++ "]"

/-- Embeds inject_approval_variables_with_context (main.rs lines 1461-1477). -/
def inject_approval_variables_with_context (template : String) (command : List String)
    (cwd : String) (reason : Option String) (config_content : String) : String :=
  replaceAll (replaceAll (replaceAll (replaceAll template
    "{command}" (fmtCommandDebug command))
    "{cwd}" ("\"" ++ cwd ++ "\""))
    "{reason}" (reason.getD "No reason provided"))
    "{task_context}" config_content

/-- Debug rendering of a patch change set, modelling the Debug formatter on
the changes map (paths paired with change descriptions). -/
def fmtChangesDebug (changes : List (String × String)) : String :=
  "\x7b" ++ String.intercalate ", " (changes.map (fun pc => "\"" ++ pc.1 ++ "\": " ++ pc.2)) ++ "\x7d"

/-- Embeds inject_patch_approval_variables_with_context (main.rs lines
1479-1497). -/
def inject_patch_approval_variables_with_context (template : String)
    (changes : List (String × String)) (reason : Option String) (config_content : String) : String :=
  replaceAll (replaceAll (replaceAll (replaceAll (replaceAll template
    "{command}" ("Apply patch to " ++ toString changes.length ++ " files"))
    "{cwd}" ".")
    "{reason}" (reason.getD "No reason provided"))
    "{task_context}" config_content)
    "{changes}" (fmtChangesDebug changes)

/-- Embeds inject_bugcrowd_approval_variables (main.rs lines 1499-1512). -/
def inject_bugcrowd_approval_variables (template tool : String) (arguments : Option Json) : String :=
  let argumentsStr := match arguments with
    | some args => Json.compact args
    | none => "No arguments provided"
  replaceAll (replaceAll template "{tool}" tool) "{arguments}" argumentsStr

/-! ### Summarisation (main.rs lines 1562-1586) -/

/-- Embeds summarize_context: substitute the context into the summarization
template, consult the driver, return the summary text; failures propagate. -/
def summarize_context (env : SupervisorEnv) (d : Driver) (template context : String) :
    Except String String :=
  match generate_user_prompt env d (replaceAll template "{context}" context) with
  | .error e => .error e
  | .ok pr => .ok pr.1

/-! ### Event demultiplexer (collect_codex_response_with_tools,
main.rs lines 972-1437) -/

/-- ReviewDecision as produced by this loop (other protocol variants are
never constructed here). -/
inductive ReviewDecision
  | Approved
  | Denied
deriving DecidableEq, Repr

/-- An operation submitted back to the agent runtime from inside the
demultiplexer. -/
inductive SubmittedOp
  | execApproval (id : String) (decision : ReviewDecision)
  | patchApproval (id : String) (decision : ReviewDecision)
deriving DecidableEq, Repr

/-- A tool-call record as stored in the turn's tool_calls list: id, a type
tag ("function" or "system"), the function name and serialized arguments.
The timestamp metadata fields of the source records are elided. -/
structure ToolCallRec where
  id : String
  ctype : String
  name : String
  arguments : String
deriving DecidableEq, Repr

/-- A tool-response record: the referenced call id and the content string. -/
structure ToolRespRec where
  tool_call_id : String
  content : String
deriving DecidableEq, Repr

/-- The agent event vocabulary consumed by the demultiplexer.  Serialized
payloads carried by events (MCP success results) are modelled as the strings
they serialize to. -/
inductive AgentEvent
  | agentMessage (message : String)
  | agentReasoning (text : String)
  | execCommandBegin (call_id : String) (command : List String)
  | execCommandEnd (call_id : String) (exit_code : Int) (stdout stderr : String)
  | mcpToolCallBegin (call_id tool : String) (arguments : Option Json)
  | mcpToolCallEnd (call_id : String) (result : Except String String)
  | execApprovalRequest (command : List String) (cwd : String) (reason : Option String)
  | applyPatchApprovalRequest (changes : List (String × String)) (reason : Option String)
  | taskStarted
  | tokenCount (usage : String)
  | backgroundEvent (message : String)
  | patchApplyBegin (call_id : String)
  | patchApplyEnd (call_id : String)
  | taskComplete
  | errorEvent (message : String)
  | otherEvent
deriving Repr

/-- The demultiplexer's mutable state: the four output buffers, the
completion flag, the set of denied bugcrowd call ids, the operations
submitted back to the agent, and a counter standing in for the
millisecond timestamps used to mint synthetic ids. -/
structure DemuxState where
  assistant_content : String
  reasoning_content : String
  tool_calls : List ToolCallRec
  tool_responses : List ToolRespRec
  task_complete : Bool
  denied_tool_calls : List String
  submitted : List SubmittedOp
  ctr : Nat
deriving Repr

/-- Serialized arguments of the synthetic bash tool call. -/
def execArgsJson (command : List String) : String :=
  "\x7b\"command\":" ++ fmtCommandDebug command ++ "\x7d"

/-- Serialized content of the synthetic bash tool response. -/
def execResultJson (exit_code : Int) (stdout stderr : String) : String :=
  "\x7b\"exit_code\":" ++ toString exit_code ++ ",\"stdout\":\"" ++ stdout ++
    "\",\"stderr\":\"" ++ stderr ++ "\"\x7d"

/-- Serialized MCP invocation arguments (None serializes to null). -/
def mcpArgsStr : Option Json → String
  | none => "null"
  | some j => Json.compact j

/-- Synthetic id of an exec approval request (timestamp replaced by the
state counter). -/
def approvalId (ctr : Nat) : String := "approval_" ++ toString ctr

/-- Synthetic id of a patch approval request. -/
def patchApprovalId (ctr : Nat) : String := "patch_approval_" ++ toString ctr

/-- Serialized payload of an exec approval request. -/
def execApprovalArgs (command : List String) (cwd : String) (reason : Option String) : String :=
  "\x7b\"command\":" ++ fmtCommandDebug command ++ ",\"cwd\":\"" ++ cwd ++ "\",\"reason\":" ++
    (match reason with | some r => "\"" ++ r ++ "\"" | none => "null") ++ "\x7d"

/-- Serialized payload of a patch approval request. -/
def patchApprovalArgs (changes : List (String × String)) (reason : Option String) : String :=
  "\x7b\"changes\":" ++ fmtChangesDebug changes ++ ",\"reason\":" ++
    (match reason with | some r => "\"" ++ r ++ "\"" | none => "null") ++ "\x7d"

/-- The synthetic request_approval tool call pushed for an exec approval. -/
def execApprovalCall (ctr : Nat) (command : List String) (cwd : String)
    (reason : Option String) : ToolCallRec :=
  ⟨approvalId ctr, "function", "request_approval", execApprovalArgs command cwd reason⟩

/-- The synthetic request_patch_approval tool call. -/
def patchApprovalCall (ctr : Nat) (changes : List (String × String))
    (reason : Option String) : ToolCallRec :=
  ⟨patchApprovalId ctr, "function", "request_patch_approval", patchApprovalArgs changes reason⟩

/-- Serde tag of a review decision inside the synthetic response content. -/
def reviewDecisionStr : ReviewDecision → String
  | .Approved => "approved"
  | .Denied => "denied"

/-- Content of the synthetic exec-approval tool response. -/
def execDecisionContent (d : ReviewDecision) : String :=
  "\x7b\"decision\":\"" ++ reviewDecisionStr d ++ "\",\"llm_response\":\"" ++
    (match d with
      | .Approved => "✅ Approved by external LLM"
      | .Denied => "❌ Denied by external LLM") ++ "\"\x7d"

/-- Content of the synthetic patch-approval tool response. -/
def patchDecisionContent (d : ReviewDecision) : String :=
  "\x7b\"decision\":\"" ++ reviewDecisionStr d ++ "\",\"llm_response\":\"" ++
    (match d with
      | .Approved => "✅ Patch approved by external LLM"
      | .Denied => "❌ Patch denied by external LLM") ++ "\"\x7d"

/-- The general approval-gate decision (main.rs lines 1208-1229 and
1292-1316): a successful driver response is Approved exactly when its
lowercased text contains "approve"; a driver failure is Denied. -/
def gateDecision (res : Except String (String × List ToolResult)) : ReviewDecision :=
  match res with
  | .ok pr => if containsCI pr.1 "approve" then .Approved else .Denied
  | .error _ => .Denied

/-- Content of the synthetic bugcrowd denial tool response. -/
def bugcrowdDenialContent (reasoning : String) : String :=
  "❌ Bugcrowd submission denied by security review: " ++ reasoning

/-- Content of the synthetic bugcrowd approval-error tool response. -/
def bugcrowdErrorContent (e : String) : String :=
  "❌ Bugcrowd submission failed due to approval error: " ++ e

/-- The parameters threaded through the demultiplexer: the submission id,
the driver and its environment, the two approval templates and the task
configuration text. -/
structure DemuxParams where
  sid : String
  d : Driver
  env : SupervisorEnv
  approvalTemplate : String
  bugcrowdTemplate : String
  configContent : String

/-- One step of the demultiplexer: the event match of
collect_codex_response_with_tools (main.rs lines 1000-1416), for an event
whose id already matched the submission id. -/
def processEvent (p : DemuxParams) (st : DemuxState) : AgentEvent → DemuxState
  | .agentMessage message =>
    { st with assistant_content := st.assistant_content ++ message ++ "\n" }
  | .agentReasoning text =>
    { st with reasoning_content := st.reasoning_content ++ text ++ "\n" }
  | .execCommandBegin call_id command =>
    { st with tool_calls :=
        st.tool_calls ++ [⟨"exec_" ++ call_id, "function", "bash", execArgsJson command⟩] }
  | .execCommandEnd call_id exit_code stdout stderr =>
    { st with tool_responses :=
        st.tool_responses ++ [⟨"exec_" ++ call_id, execResultJson exit_code stdout stderr⟩] }
  | .mcpToolCallBegin call_id tool arguments =>
    if tool = "bugcrowd_submit" then
      match generate_user_prompt p.env p.d
          (inject_bugcrowd_approval_variables p.bugcrowdTemplate tool arguments) with
      | .ok pr =>
        if (parse_approval_response pr.1).1 then
          { st with tool_calls :=
              st.tool_calls ++ [⟨call_id, "function", tool, mcpArgsStr arguments⟩] }
        else
          { st with
              denied_tool_calls := call_id :: st.denied_tool_calls,
              tool_responses := st.tool_responses ++
                [⟨call_id, bugcrowdDenialContent (parse_approval_response pr.1).2⟩] }
      | .error e =>
        { st with tool_responses := st.tool_responses ++ [⟨call_id, bugcrowdErrorContent e⟩] }
    else
      { st with tool_calls :=
          st.tool_calls ++ [⟨call_id, "function", tool, mcpArgsStr arguments⟩] }
  | .mcpToolCallEnd call_id result =>
    if memStr call_id st.denied_tool_calls then st
    else
      match result with
      | .ok success =>
        { st with tool_responses := st.tool_responses ++ [⟨call_id, success⟩] }
      | .error err =>
        { st with tool_responses := st.tool_responses ++ [⟨call_id, "Error: " ++ err⟩] }
  | .execApprovalRequest command cwd reason =>
    let decision := gateDecision (generate_user_prompt p.env p.d
      (inject_approval_variables_with_context p.approvalTemplate command cwd reason
        p.configContent))
    { st with
        ctr := st.ctr + 1,
        tool_calls := st.tool_calls ++ [execApprovalCall st.ctr command cwd reason],
        tool_responses := st.tool_responses ++ [⟨approvalId st.ctr, execDecisionContent decision⟩],
        submitted := st.submitted ++ [.execApproval p.sid decision] }
  | .applyPatchApprovalRequest changes reason =>
    let decision := gateDecision (generate_user_prompt p.env p.d
      (inject_patch_approval_variables_with_context p.approvalTemplate changes reason
        p.configContent))
    { st with
        ctr := st.ctr + 1,
        tool_calls := st.tool_calls ++ [patchApprovalCall st.ctr changes reason],
        tool_responses := st.tool_responses ++
          [⟨patchApprovalId st.ctr, patchDecisionContent decision⟩],
        submitted := st.submitted ++ [.patchApproval p.sid decision] }
  | .taskStarted =>
    { st with
        ctr := st.ctr + 1,
        tool_calls := st.tool_calls ++
          [⟨"event_taskstarted_" ++ toString st.ctr, "system", "task_started", "\x7b\x7d"⟩] }
  | .tokenCount usage =>
    { st with
        ctr := st.ctr + 1,
        tool_calls := st.tool_calls ++
          [⟨"event_tokencount_" ++ toString st.ctr, "system", "token_count", usage⟩] }
  | .backgroundEvent message =>
    { st with
        ctr := st.ctr + 1,
        tool_calls := st.tool_calls ++
          [⟨"event_background_" ++ toString st.ctr, "system", "background_event",
            "\x7b\"message\":\"" ++ message ++ "\"\x7d"⟩] }
  | .patchApplyBegin call_id =>
    { st with tool_calls := st.tool_calls ++
        [⟨"patch_" ++ call_id, "function", "apply_patch",
          "\x7b\"call_id\":\"" ++ call_id ++ "\"\x7d"⟩] }
  | .patchApplyEnd call_id =>
    { st with tool_responses := st.tool_responses ++
        [⟨"patch_" ++ call_id, "\x7b\"call_id\":\"" ++ call_id ++ "\"\x7d"⟩] }
  | .taskComplete => { st with task_complete := true }
  | .errorEvent _ => { st with task_complete := true }
  | .otherEvent => st

/-- The demultiplexer loop: events are consumed until the completion flag is
set; events whose id does not match the submission id are discarded. -/
def collectEvents (p : DemuxParams) (st : DemuxState) : List (String × AgentEvent) → DemuxState
  | [] => st
  | (eid, ev) :: rest =>
    if st.task_complete then st
    else if eid = p.sid then collectEvents p (processEvent p st ev) rest
    else collectEvents p st rest

/-- The demultiplexer's initial state. -/
def initialDemuxState : DemuxState := ⟨"", "", [], [], false, [], [], 0⟩

/-- The tuple returned by collect_codex_response_with_tools (main.rs lines
1425-1436): trimmed assistant text, tool calls, the trimmed reasoning when
non-empty, and the tool responses. -/
def demuxOutput (st : DemuxState) :
    String × List ToolCallRec × Option String × List ToolRespRec :=
  (rustTrim st.assistant_content, st.tool_calls,
    (if rustTrim st.reasoning_content = "" then none else some (rustTrim st.reasoning_content)),
    st.tool_responses)

/-! ### Conversation log and context rendering (main.rs lines 817-911) -/

/-- A conversation-log record.  The three assistant shapes are mutually
exclusive in the source (content, reasoning, tool_calls), which the
constructors reflect. -/
inductive LogMsg
  | system (content : String)
  | user (content : String) (tool_calls : List ToolCallRec)
  | assistantContent (content : String)
  | assistantReasoning (reasoning : String)
  | assistantToolCalls (tool_calls : List ToolCallRec)
  | tool (tool_call_id : String) (content : String)
deriving Repr

/-- Serde-style rendering of one tool call inside the readable context. -/
def toolCallJsonStr (tc : ToolCallRec) : String :=
  "\x7b\"id\":\"" ++ tc.id ++ "\",\"type\":\"" ++ tc.ctype ++ "\",\"function\":\x7b\"name\":\"" ++
    tc.name ++ "\",\"arguments\":\"" ++ tc.arguments ++ "\"\x7d\x7d"

/-- Serde-style rendering of a tool-call list. -/
def toolCallsJsonStr (tcs : List ToolCallRec) : String :=
  "[" ++ String.intercalate "," (tcs.map toolCallJsonStr) ++ "]"

/-- Rendering of one log record into the readable context (main.rs lines
850-903): ROLE prefix, body, blank line; system-kind tool calls are filtered
from assistant tool-call records and an assistant tool-call record whose
filtered list is empty renders nothing. -/
def renderMsg : LogMsg → String
  | .system c => "SYSTEM: " ++ c ++ "\n\n"
  | .user c _ => "USER: " ++ c ++ "\n\n"
  | .assistantReasoning r => "ASSISTANT_REASONING: " ++ r ++ "\n\n"
  | .assistantToolCalls tcs =>
    let filtered := tcs.filter (fun tc => !(tc.ctype = "system"))
    if filtered.isEmpty then "" else "ASSISTANT_TOOL_CALLS: " ++ toolCallsJsonStr filtered ++ "\n\n"
  | .assistantContent c => "ASSISTANT: " ++ c ++ "\n\n"
  | .tool _ c => "TOOL_RESPONSE: " ++ c ++ "\n\n"

/-- The readable context rebuilt from the conversation log. -/
def renderLog (log : List LogMsg) : String := log.foldl (fun acc m => acc ++ renderMsg m) ""

/-! ### Iteration controller (run_autonomous_mode, main.rs lines 275-970) -/

/-- MAX_TOKENS constant (main.rs line 673). -/
def MAX_TOKENS : Nat := 200000

/-- TOKEN_BUFFER constant (main.rs line 674). -/
def TOKEN_BUFFER : Nat := 500

/-- The loop's fixed collaborators: the tokenizer, the driver, the
supervisor environment, the five prompt templates and the task
configuration text. -/
structure LoopParams where
  countTokens : String → Nat
  d : Driver
  env : SupervisorEnv
  initialTemplate : String
  continuationTemplate : String
  approvalTemplate : String
  bugcrowdTemplate : String
  summarizationTemplate : String
  configContent : String

/-- The per-iteration external inputs: the submission id returned by the
agent and the event stream observed for it. -/
structure IterInputs where
  sid : String
  events : List (String × AgentEvent)

/-- The loop state threaded between iterations.  The checkpoints component
records the iteration file names written by save_checkpoint. -/
structure LoopState where
  context : String
  conversation_log : List LogMsg
  iteration : Nat
  session_finished : Bool
  checkpoints : List String
deriving Repr

/-- The outcome of one iteration: the new loop state, whether the
summariser ran, the final user prompt submitted to the agent, and the
supervisor tool results of the driver turn. -/
structure IterOut where
  state : LoopState
  summarized : Bool
  finalUserPrompt : String
  toolResults : List ToolResult
deriving Repr

/-- Serde-style rendering of a tool result for the follow-up context. -/
def toolResultJsonStr (tr : ToolResult) : String :=
  "\x7b\"tool_call_id\":\"" ++ tr.tool_call_id ++ "\",\"tool_name\":\"" ++ tr.tool_name ++
    "\",\"content\":\"" ++ tr.content ++ "\"\x7d"

/-- Serde-style rendering of the tool-result list. -/
def prettyToolResults (trs : List ToolResult) : String :=
  "[" ++ String.intercalate "," (trs.map toolResultJsonStr) ++ "]"

/-- The tool_calls entries mirrored into the user record when the driver
made tool calls (main.rs lines 728-740): id and name copied from the
result, empty-object arguments. -/
def mirrorToolCalls (trs : List ToolResult) : List ToolCallRec :=
  trs.map (fun tr => ⟨tr.tool_call_id, "function", tr.tool_name, "\x7b\x7d"⟩)

/-- The demultiplexer parameters assembled by the loop for one submission. -/
def demuxParamsOf (p : LoopParams) (sid : String) : DemuxParams :=
  ⟨sid, p.d, p.env, p.approvalTemplate, p.bugcrowdTemplate, p.configContent⟩

/-- The context-preparation step of one iteration (main.rs lines 669-696):
when the token count of the context strictly exceeds MAX_TOKENS minus
TOKEN_BUFFER the summariser replaces the working context (the conversation
log is untouched); the flag records whether that happened. -/
def prepareContext (p : LoopParams) (context : String) : Except String (String × Bool) :=
  if MAX_TOKENS - TOKEN_BUFFER < p.countTokens context then
    match summarize_context p.env p.d p.summarizationTemplate context with
    | .error e => .error e
    | .ok s => .ok (s, true)
  else .ok (context, false)

/-- The supervisor-tool branch of the driver turn (main.rs lines 721-793):
with tool results, the log gains a user record mirroring the calls, one tool
record per result and the follow-up user record; the working context gains
the follow-up exchange.  Without tool results the driver text becomes the
user record directly.  Returns the appended records, the updated working
context and the final user prompt. -/
def supervisorPhase (p : LoopParams) (fc user_prompt : String) (tool_results : List ToolResult) :
    Except String (List LogMsg × String × String) :=
  if tool_results.isEmpty then
    .ok ([.user user_prompt []], fc, user_prompt)
  else
    match generate_user_prompt p.env p.d
        (inject_template_variables p.continuationTemplate p.configContent
          (fc ++ "\n\nTool Results:\n" ++ prettyToolResults tool_results)) with
    | .error e => .error e
    | .ok pr =>
      .ok ([.user user_prompt (mirrorToolCalls tool_results)]
            ++ tool_results.map (fun tr => LogMsg.tool tr.tool_call_id tr.content)
            ++ [.user pr.1 []],
          fc ++ "\n\nUSER: " ++ pr.1 ++ "\n\nASSISTANT: " ++ pr.1,
          pr.1)

/-- The records appended to the conversation log after the agent turn
(main.rs lines 817-846): optional reasoning, optional tool calls, every
tool response in order, then the final assistant content. -/
def agentRecords (out : String × List ToolCallRec × Option String × List ToolRespRec) :
    List LogMsg :=
  (match out.2.2.1 with
    | some rt => [LogMsg.assistantReasoning rt]
    | none => [])
  ++ (if out.2.1.isEmpty then [] else [LogMsg.assistantToolCalls out.2.1])
  ++ out.2.2.2.map (fun r => LogMsg.tool r.tool_call_id r.content)
  ++ [LogMsg.assistantContent out.1]

/-- The agent turn of one iteration (main.rs lines 795-846): run the
demultiplexer and append its outputs to the log. -/
def agentPhase (p : LoopParams) (inp : IterInputs) : List LogMsg :=
  agentRecords (demuxOutput (collectEvents (demuxParamsOf p inp.sid) initialDemuxState
    inp.events))

/-- Zero-padded iteration file name, modelling format iteration_NNN.json. -/
def pad3 (n : Nat) : String :=
  if n < 10 then "00" ++ toString n else if n < 100 then "0" ++ toString n else toString n

/-- The checkpoint file name written for iteration n. -/
def iterFileName (n : Nat) : String := "iteration_" ++ pad3 n ++ ".json"

/-- Template selection (main.rs lines 663-667): the initial template on
iteration 1, the continuation template afterwards. -/
def templateFor (p : LoopParams) (iterN : Nat) : String :=
  if iterN = 1 then p.initialTemplate else p.continuationTemplate

/-- One iteration of the autonomous loop body (main.rs lines 654-924):
increment the counter, pick the template, prepare the context, enforce the
prompt budget, run the driver turn and the supervisor branch, run the agent
turn, rebuild the context (the summary-based working context survives when
the summariser ran, otherwise the log is re-rendered), and record the
checkpoint.  The session_finished component is copied through unchanged
because the loop body contains no assignment to it. -/
def iterationStep (p : LoopParams) (inp : IterInputs) (st : LoopState) : Except String IterOut :=
  match prepareContext p st.context with
  | .error e => .error e
  | .ok fcb =>
    if MAX_TOKENS - TOKEN_BUFFER <
        p.countTokens (inject_template_variables (templateFor p (st.iteration + 1))
          p.configContent fcb.1) then
      .error "Driver prompt still too long after summarization"
    else
      match generate_user_prompt p.env p.d
          (inject_template_variables (templateFor p (st.iteration + 1))
            p.configContent fcb.1) with
      | .error e => .error e
      | .ok upr =>
        match supervisorPhase p fcb.1 upr.1 upr.2 with
        | .error e => .error e
        | .ok sup =>
          .ok {
            state := {
              context := if fcb.2 then sup.2.1
                else renderLog (st.conversation_log ++ (sup.1 ++ agentPhase p inp)),
              conversation_log := st.conversation_log ++ (sup.1 ++ agentPhase p inp),
              iteration := st.iteration + 1,
              session_finished := st.session_finished,
              checkpoints := st.checkpoints ++ [iterFileName (st.iteration + 1)] },
            summarized := fcb.2,
            finalUserPrompt := sup.2.2,
            toolResults := upr.2 }

/-! ### Resume numbering (main.rs lines 446-461) -/

/-- Digit-sequence parse of a u32 (no sign). -/
def parseU32Digits (cs : List Char) : Option Nat :=
  if cs.isEmpty then none
  else if cs.all Char.isDigit then
    some (cs.foldl (fun n c => n * 10 + (c.toNat - 48)) 0)
  else none

/-- Models str::parse for u32: optional leading plus then digits. -/
def parseU32 (cs : List Char) : Option Nat :=
  match cs with
  | '+' :: rest => parseU32Digits rest
  | _ => parseU32Digits cs

/-- Index extraction from a checkpoint file name (main.rs lines 452-454):
names starting with iteration_ and ending with .json have the three
characters at positions 10 to 12 parsed as a u32. -/
def parseIterationFilename (filename : String) : Option Nat :=
  let cs := filename.data
  if startsList "iteration_".data cs && endsList ".json".data cs then
    parseU32 ((cs.drop 10).take 3)
  else none

/-- The maximum checkpoint index found in a resume directory listing. -/
def resumeMaxIteration (files : List String) : Nat :=
  files.foldl (fun m f =>
    match parseIterationFilename f with
    | some n => max m n
    | none => m) 0

/-- The iteration counter value set on resume (main.rs line 460):
max_iteration + 1.  The loop body then increments again before the first
new turn executes. -/
def resumeStartIteration (files : List String) : Nat := resumeMaxIteration files + 1

/-- Extraction of a successful iteration outcome, with a default for the
error case; used to state closed evaluations of the loop body. -/
def getOk (dflt : IterOut) : Except String IterOut → IterOut
  | .ok r => r
  | .error _ => dflt

/-- A default iteration outcome. -/
def iterOutDflt : IterOut := ⟨⟨"", [], 0, false, []⟩, false, "", []⟩

/-! ### Tool-response coverage checkers

The conversation-log invariant claimed by the specification: every tool
record refers to a tool call recorded earlier in the log.  The permissive
variant additionally accepts a tool record that shares its call id with a
preceding-or-same synthetic bugcrowd denial or approval-error response. -/

/-- Recognises the two synthetic bugcrowd gate responses by their content. -/
def isBugcrowdSynthetic (c : String) : Bool :=
  startsList "❌ Bugcrowd submission denied by security review: ".data c.data ||
  startsList "❌ Bugcrowd submission failed due to approval error: ".data c.data

/-- The ids of the tool calls collected so far. -/
def callIds (st : DemuxState) : List String := st.tool_calls.map ToolCallRec.id

/-- Accumulates the ids of synthetic bugcrowd responses over a response list. -/
def pushMarked (mk : List String) : List ToolRespRec → List String
  | [] => mk
  | r :: rest =>
    pushMarked (if isBugcrowdSynthetic r.content then r.tool_call_id :: mk else mk) rest

/-- Scans a tool-response list: each response must cite a collected call id
or a synthetic bugcrowd response id seen so far (itself included). -/
def respChainOk (cids : List String) : List String → List ToolRespRec → Bool
  | _, [] => true
  | mk, r :: rest =>
    let mk2 := if isBugcrowdSynthetic r.content then r.tool_call_id :: mk else mk
    (memStr r.tool_call_id cids || memStr r.tool_call_id mk2) && respChainOk cids mk2 rest

/-- The synthetic call id introduced by a begin event, when any. -/
def beginIdOf : AgentEvent → Option String
  | .execCommandBegin call_id _ => some ("exec_" ++ call_id)
  | .mcpToolCallBegin call_id _ _ => some call_id
  | .patchApplyBegin call_id => some ("patch_" ++ call_id)
  | _ => none

/-- The synthetic call id cited by an end event, when any. -/
def endIdOf : AgentEvent → Option String
  | .execCommandEnd call_id _ _ _ => some ("exec_" ++ call_id)
  | .mcpToolCallEnd call_id _ => some call_id
  | .patchApplyEnd call_id => some ("patch_" ++ call_id)
  | _ => none

/-- Well-pairedness of an event stream for a submission id: every end event
is preceded by its matching begin event. -/
def wellPaired (sid : String) : List String → List (String × AgentEvent) → Bool
  | _, [] => true
  | covered, (eid, ev) :: rest =>
    if eid = sid then
      match endIdOf ev with
      | some i => memStr i covered && wellPaired sid covered rest
      | none =>
        match beginIdOf ev with
        | some i => wellPaired sid (i :: covered) rest
        | none => wellPaired sid covered rest
    else wellPaired sid covered rest

/-- The call ids contributed by a log record through its tool_calls list. -/
def msgCallIds : LogMsg → List String
  | .user _ tcs => tcs.map ToolCallRec.id
  | .assistantToolCalls tcs => tcs.map ToolCallRec.id
  | _ => []

/-- Forward scan of a conversation log: a tool record is accepted when its
id was announced by an earlier tool_calls entry, or (in the permissive
variant, strict = false) when it shares its id with a preceding-or-same
synthetic bugcrowd response. -/
def logCoveredAux (strict : Bool) : List String → List String → List LogMsg → Bool
  | _, _, [] => true
  | seen, mk, m :: rest =>
    match m with
    | .tool i c =>
      let mk2 := if isBugcrowdSynthetic c then i :: mk else mk
      (memStr i seen || (!strict && memStr i mk2)) && logCoveredAux strict seen mk2 rest
    | _ => logCoveredAux strict (msgCallIds m ++ seen) mk rest

/-- The log-wide coverage invariant (strict = true is the specification's
statement, strict = false permits the bugcrowd gate exceptions). -/
def logToolCovered (strict : Bool) (log : List LogMsg) : Bool := logCoveredAux strict [] [] log

/-- Accumulated seen-set of a log segment, for the append lemma. -/
def seenAccL (seen : List String) : List LogMsg → List String
  | [] => seen
  | m :: rest =>
    match m with
    | .tool _ _ => seenAccL seen rest
    | _ => seenAccL (msgCallIds m ++ seen) rest

/-- Accumulated synthetic-response ids of a log segment. -/
def mkAccL (mk : List String) : List LogMsg → List String
  | [] => mk
  | m :: rest =>
    match m with
    | .tool i c => mkAccL (if isBugcrowdSynthetic c then i :: mk else mk) rest
    | _ => mkAccL mk rest

/-- Demultiplexer invariant: every collected tool response cites a collected
call id or a synthetic bugcrowd response id that precedes it (or is it). -/
def demuxRespOk (st : DemuxState) : Prop :=
  respChainOk (callIds st) [] st.tool_responses = true

/-- Demultiplexer invariant: every denied call id has a synthetic bugcrowd
response among the collected responses. -/
def demuxDeniedOk (st : DemuxState) : Prop :=
  ∀ x, memStr x st.denied_tool_calls = true → memStr x (pushMarked [] st.tool_responses) = true

/-- Demultiplexer invariant: every id announced by a processed begin event
is a collected call id or a synthetic bugcrowd response id. -/
def demuxCoveredOk (st : DemuxState) (covered : List String) : Prop :=
  ∀ x, memStr x covered = true →
    memStr x (callIds st) = true ∨ memStr x (pushMarked [] st.tool_responses) = true

/-! ### Concrete scenarios used by the closed evaluations -/

/-- A benign supervisor environment: every file operation succeeds, no
webhook configured. -/
def envOkA : SupervisorEnv :=
  ⟨.ok (), "TS", "20240101_000000", fun _ _ => .ok (), .ok [], fun _ => .ok "", none,
    fun _ _ => .ok ("", "")⟩

/-- The finished tool call issued by the driver: arguments arrive as the raw
JSON string of the stream, so the reason lookup falls back to its default,
exactly as in the source. -/
def finCallC1 : DriverToolCall := ⟨"c1", "finished", Json.jstr "done"⟩

/-- A driver that invokes the finished tool and then supplies a follow-up
instruction. -/
def dC1 : Driver := ⟨fun _ => .ok ("noted", [finCallC1]), fun _ => .ok "keep going"⟩

/-- Loop parameters for the finished-tool scenario. -/
def pC1 : LoopParams :=
  ⟨fun _ => 0, dC1, envOkA, "I {context}", "C {context}", "A", "B", "S {context}", "cfg"⟩

/-- A minimal agent turn for the finished-tool scenario. -/
def inpC1 : IterInputs := ⟨"sub1", [("sub1", .taskComplete)]⟩

/-- The fresh loop state for the finished-tool scenario. -/
def stC1 : LoopState := ⟨"", [], 0, false, []⟩

/-- Demultiplexer parameters whose driver answers every approval request
with a response that begins with DENY yet mentions the word approve. -/
def pC2gate : DemuxParams :=
  ⟨"sid", ⟨fun _ => .ok ("DENY - I will not approve this", []), fun _ => .ok ""⟩, envOkA,
    "T", "U", "cfg"⟩

/-- Demultiplexer parameters whose driver denies bugcrowd submissions. -/
def pC3 : DemuxParams :=
  ⟨"s3", ⟨fun _ => .ok ("DENY - bad", []), fun _ => .ok ""⟩, envOkA, "A", "B {tool}", "cfg"⟩

/-- A driver that denies the bugcrowd approval prompt and gives a plain
instruction to every other prompt. -/
def dC5 : Driver :=
  ⟨fun prompt =>
      if prompt = "B bugcrowd_submit No arguments provided" then .ok ("DENY - nope", [])
      else .ok ("instr", []),
    fun _ => .ok "fup"⟩

/-- Loop parameters for the bugcrowd-denial iteration. -/
def pC5 : LoopParams :=
  ⟨fun _ => 0, dC5, envOkA, "I {context}", "C {context}", "A", "B {tool} {arguments}",
    "S {context}", "cfg"⟩

/-- An agent turn containing a denied bugcrowd submission. -/
def inpC5 : IterInputs :=
  ⟨"s5", [("s5", .mcpToolCallBegin "X" "bugcrowd_submit" none),
          ("s5", .mcpToolCallEnd "X" (.ok "res")),
          ("s5", .taskComplete)]⟩

/-- The fresh loop state for the bugcrowd-denial iteration. -/
def stC5 : LoopState := ⟨"", [], 0, false, []⟩

/-- The resume directory listing of the specification's resume scenario. -/
def filesC6 : List String :=
  ["iteration_001.json", "iteration_002.json", "latest.json", "context_log.txt"]

/-- A driver producing a plain instruction without tool calls. -/
def dC6 : Driver := ⟨fun _ => .ok ("go", []), fun _ => .ok "x"⟩

/-- Loop parameters for the resume scenario. -/
def pC6 : LoopParams :=
  ⟨fun _ => 0, dC6, envOkA, "I {context}", "C {context}", "A", "B", "S {context}", "cfg"⟩

/-- A minimal agent turn for the resume scenario. -/
def inpC6 : IterInputs := ⟨"s6", [("s6", .taskComplete)]⟩

/-- The loop state right after the resume bootstrap: the iteration counter
holds the resume value computed from the directory listing. -/
def stC6 : LoopState := ⟨"", [], resumeStartIteration filesC6, false, []⟩

/-- A driver whose follow-up turn produces empty text after a tool call. -/
def dC7 : Driver := ⟨fun _ => .ok ("hello", [⟨"c7", "finished", Json.jstr "x"⟩]), fun _ => .ok ""⟩

/-- A tokenizer stub that reports the summarisation trigger size only for
the seeded context. -/
def ctC8 : String → Nat := fun s => if s = "BIG" then 199501 else 0

/-- A driver that answers the summarisation prompt with SUM and everything
else with a plain instruction. -/
def dC8 : Driver :=
  ⟨fun prompt => if prompt = "S BIG" then .ok ("SUM", []) else .ok ("instr", []),
    fun _ => .ok "x"⟩

/-- Loop parameters for the summarisation scenario. -/
def pC8 : LoopParams :=
  ⟨ctC8, dC8, envOkA, "I {context}", "C {context}", "A", "B", "S {context}", "cfg"⟩

/-- A minimal agent turn for the summarisation scenario. -/
def inpC8 : IterInputs := ⟨"s8", [("s8", .taskComplete)]⟩

/-- The loop state whose context sits above the summarisation threshold. -/
def stC8 : LoopState := ⟨"BIG", [], 0, false, []⟩

/-- Loop parameters whose tokenizer reports exactly the threshold. -/
def pC9a : LoopParams :=
  ⟨fun _ => 199500, ⟨fun _ => .ok ("SUM", []), fun _ => .ok "x"⟩, envOkA,
    "I {context}", "C {context}", "A", "B", "S {context}", "cfg"⟩

/-- Loop parameters whose tokenizer reports one token above the threshold. -/
def pC9b : LoopParams :=
  ⟨fun _ => 199501, ⟨fun _ => .ok ("SUM", []), fun _ => .ok "x"⟩, envOkA,
    "I {context}", "C {context}", "A", "B", "S {context}", "cfg"⟩

/-- Demultiplexer parameters whose driver transport always fails. -/
def pC10 : DemuxParams :=
  ⟨"s10", ⟨fun _ => .error "boom", fun _ => .error "boom"⟩, envOkA, "A", "B", "cfg"⟩

/-! ## Lemmas -/

theorem memStr_append (x : String) (l1 l2 : List String) :
    memStr x (l1 ++ l2) = (memStr x l1 || memStr x l2) := by
  induction l1 with
  | nil => simp [memStr]
  | cons y ys ih => simp [memStr, ih, Bool.or_assoc]

theorem memStr_cons_self (x : String) (l : List String) : memStr x (x :: l) = true := by
  simp [memStr]

theorem memStr_cons_of (x y : String) (l : List String) (h : memStr x l = true) :
    memStr x (y :: l) = true := by
  simp only [memStr]
  split <;> simp [h]

/-! ## Claim C4: parse_approval_response totality and prefix behaviour -/

/-- C4.  parse_approval_response is a total Lean function by construction;
its boolean verdict is true exactly when the trimmed input starts with
"approve" case-insensitively, so in particular every input whose trimmed
form starts with neither "approve" nor "deny" is denied. -/
theorem parse_approval_prefix_spec :
    ∀ s : String, (parse_approval_response s).1 = startsWithCI (rustTrim s) "approve" := by
  intro s
  have h : lowerList "approve".data = "approve".data := by decide
  simp only [parse_approval_response, startsWithCI, rustTrim, h]
  by_cases hc : startsList "approve".data (lowerList (trimList s.data))
  · simp [hc]
  · simp only [hc, if_false, Bool.false_eq_true]
    split <;> rfl

/-! ## Claim C9: summarisation threshold -/

/-- C9.  The summariser runs exactly when the token count of the context
strictly exceeds MAX_TOKENS - TOKEN_BUFFER = 199500: the context passes
through unchanged (flag false) iff the count is at most 199500, a count of
exactly 199500 does not trigger the summariser and 199501 does. -/
theorem summarisation_threshold_spec :
    MAX_TOKENS - TOKEN_BUFFER = 199500
    ∧ (∀ (p : LoopParams) (ctx : String),
        prepareContext p ctx = Except.ok (ctx, false) ↔ p.countTokens ctx ≤ 199500)
    ∧ prepareContext pC9a "ctx" = Except.ok ("ctx", false)
    ∧ prepareContext pC9b "ctx" = Except.ok ("SUM", true) := by
  refine ⟨rfl, ?_, rfl, rfl⟩
  intro p ctx
  constructor
  · intro h
    by_contra hgt
    push_neg at hgt
    have hlt : MAX_TOKENS - TOKEN_BUFFER < p.countTokens ctx := by
      have : MAX_TOKENS - TOKEN_BUFFER = 199500 := rfl
      omega
    unfold prepareContext at h
    rw [if_pos hlt] at h
    cases hs : summarize_context p.env p.d p.summarizationTemplate ctx with
    | error e => rw [hs] at h; cases h
    | ok s => rw [hs] at h; simp at h
  · intro h
    unfold prepareContext
    rw [if_neg]
    have : MAX_TOKENS - TOKEN_BUFFER = 199500 := rfl
    omega

/-! ## Claim C2: the general approval gate -/

/-- C2 counterexample.  A driver response that begins with DENY but contains
the word "approve" is submitted back as Approved, refuting the claim that
only a leading APPROVE grants approval on the exec/patch gate. -/
theorem exec_approval_leading_deny_approved :
    (processEvent pC2gate initialDemuxState
        (.execApprovalRequest ["rm"] "/w" none)).submitted
      = [SubmittedOp.execApproval "sid" ReviewDecision.Approved]
    ∧ startsWithCI (rustTrim "DENY - I will not approve this") "approve" = false :=
  ⟨rfl, rfl⟩

/-- C2 amended.  The decision submitted back to the agent for an exec or
patch approval request is computed by gateDecision over the driver call,
and gateDecision approves exactly the successful responses whose lowercased
text contains the substring "approve"; driver failures and all other
responses are denied. -/
theorem approval_gate_substring_decision :
    ∀ (p : DemuxParams) (st : DemuxState) (command : List String) (cwd : String)
      (reasonE : Option String) (changes : List (String × String)) (reasonP : Option String),
      ((processEvent p st (.execApprovalRequest command cwd reasonE)).submitted =
        st.submitted ++ [.execApproval p.sid (gateDecision (generate_user_prompt p.env p.d
          (inject_approval_variables_with_context p.approvalTemplate command cwd reasonE
            p.configContent)))])
      ∧ ((processEvent p st (.applyPatchApprovalRequest changes reasonP)).submitted =
        st.submitted ++ [.patchApproval p.sid (gateDecision (generate_user_prompt p.env p.d
          (inject_patch_approval_variables_with_context p.approvalTemplate changes reasonP
            p.configContent)))])
      ∧ (∀ res : Except String (String × List ToolResult),
          gateDecision res = ReviewDecision.Approved ↔
            ∃ pr, res = Except.ok pr ∧ containsCI pr.1 "approve" = true) := by
  intro p st command cwd reasonE changes reasonP
  refine ⟨rfl, rfl, ?_⟩
  intro res
  constructor
  · intro h
    cases res with
    | error e => simp [gateDecision] at h
    | ok pr =>
      by_cases hc : containsCI pr.1 "approve"
      · exact ⟨pr, rfl, hc⟩
      · simp [gateDecision, hc] at h
  · rintro ⟨pr, hpr, hc⟩
    rw [hpr]
    simp [gateDecision, hc]

/-! ## Claim C7: generate_user_prompt error behaviour -/

/-- C7 counterexample.  With supervisor tool calls and an empty follow-up
turn, generate_user_prompt returns empty final text successfully instead of
failing. -/
theorem generate_follow_up_empty_ok :
    generate_user_prompt envOkA dC7 "P"
      = Except.ok ("", [⟨"c7", "finished", "✅ Autonomous session finished: No reason provided"⟩]) :=
  rfl

/-- C7 amended.  generate_user_prompt fails exactly when the primary stream
fails, or tool calls were made and either the supervisor tool handling or
the follow-up stream fails, or no tool calls were made and the raw response
text is empty.  An empty follow-up text, or a whitespace-only primary
response, is returned successfully with empty trimmed text. -/
theorem generate_user_prompt_error_spec :
    ∀ (env : SupervisorEnv) (d : Driver) (prompt : String),
      (∃ e, generate_user_prompt env d prompt = Except.error e) ↔
        ((∃ e, d.primary prompt = Except.error e)
          ∨ (∃ pr, d.primary prompt = Except.ok pr ∧ pr.2 ≠ []
              ∧ ((∃ e, handle_supervisor_tool_calls env pr.2 = Except.error e)
                  ∨ ∃ e, d.followUp prompt = Except.error e))
          ∨ d.primary prompt = Except.ok ("", [])) := by
  intro env d prompt
  unfold generate_user_prompt
  cases hp : d.primary prompt with
  | error e => simp [hp]
  | ok pr =>
    obtain ⟨t, tcs⟩ := pr
    cases tcs with
    | nil =>
      by_cases ht : t = ""
      · subst ht; simp [hp]
      · simp [hp, ht]
    | cons a as =>
      cases hh : handle_supervisor_tool_calls env (a :: as) with
      | error e => simp [hp, hh]
      | ok rs =>
        cases hf : d.followUp prompt with
        | error e => simp [hp, hh, hf]
        | ok f => simp [hp, hh, hf]

/-! ## Claim C1: the finished tool and loop termination -/

/-- The loop body never changes the session_finished component: whatever
one iteration does, the while condition is unchanged afterwards. -/
theorem iterationStep_keeps_session_flag :
    ∀ (p : LoopParams) (inp : IterInputs) (st : LoopState) (r : IterOut),
      iterationStep p inp st = Except.ok r → r.state.session_finished = st.session_finished := by
  intro p inp st r h
  unfold iterationStep at h
  cases hpc : prepareContext p st.context with
  | error e => simp only [hpc] at h; cases h
  | ok fcb =>
    simp only [hpc] at h
    split at h
    · cases h
    · cases hg : generate_user_prompt p.env p.d
          (inject_template_variables (templateFor p (st.iteration + 1))
            p.configContent fcb.1) with
      | error e => simp only [hg] at h; cases h
      | ok upr =>
        simp only [hg] at h
        cases hsp : supervisorPhase p fcb.1 upr.1 upr.2 with
        | error e => simp only [hsp] at h; cases h
        | ok sup => simp only [hsp] at h; cases h; rfl

/-- C1 (code-bug evaluation).  The supervisor finished tool reports
session_finished = true, the iteration runs it and records its marker, and
yet the loop state's session_finished component is still false afterwards:
generate_user_prompt discards the flag, so the while condition never turns
false and the loop cannot exit through the finished tool. -/
theorem finished_tool_does_not_exit_loop :
    handle_supervisor_tool_calls envOkA [finCallC1]
      = Except.ok ([⟨"c1", "finished", "✅ Autonomous session finished: No reason provided"⟩], true)
    ∧ iterationStep pC1 inpC1 stC1 = Except.ok (getOk iterOutDflt (iterationStep pC1 inpC1 stC1))
    ∧ (getOk iterOutDflt (iterationStep pC1 inpC1 stC1)).toolResults
      = [⟨"c1", "finished", "✅ Autonomous session finished: No reason provided"⟩]
    ∧ (getOk iterOutDflt (iterationStep pC1 inpC1 stC1)).state.session_finished = false :=
  ⟨rfl, rfl, rfl, rfl⟩

/-! ## Claim C6: resume numbering -/

/-- C6 (code-bug evaluation).  For a directory holding iteration_001.json
and iteration_002.json the resume bootstrap sets the counter to 3, but the
loop body increments before the turn, so the first newly executed iteration
is numbered 4 and the first checkpoint written is iteration_004.json, not
iteration_003.json. -/
theorem resume_numbering_gap :
    resumeStartIteration filesC6 = 3
    ∧ iterFileName 3 = "iteration_003.json"
    ∧ iterationStep pC6 inpC6 stC6 = Except.ok (getOk iterOutDflt (iterationStep pC6 inpC6 stC6))
    ∧ (getOk iterOutDflt (iterationStep pC6 inpC6 stC6)).state.iteration = 4
    ∧ (getOk iterOutDflt (iterationStep pC6 inpC6 stC6)).state.checkpoints
      = ["iteration_004.json"] :=
  ⟨rfl, rfl, rfl, rfl, rfl⟩

/-! ## Claim C3: bugcrowd denial suppression -/

/-- C3.  When the bugcrowd gate denies a submission, processing the begin
event and the subsequent end event for the same call id leaves exactly one
tool response - the synthetic denial - and no tool-call record for that
call. -/
theorem bugcrowd_denied_once :
    ∀ (p : DemuxParams) (X : String) (args : Option Json) (res : Except String String)
      (resp : String) (ts : List ToolResult),
      generate_user_prompt p.env p.d
          (inject_bugcrowd_approval_variables p.bugcrowdTemplate "bugcrowd_submit" args)
        = Except.ok (resp, ts) →
      (parse_approval_response resp).1 = false →
      (collectEvents p initialDemuxState
          [(p.sid, .mcpToolCallBegin X "bugcrowd_submit" args),
           (p.sid, .mcpToolCallEnd X res)]).tool_responses
        = [⟨X, bugcrowdDenialContent (parse_approval_response resp).2⟩]
      ∧ (collectEvents p initialDemuxState
          [(p.sid, .mcpToolCallBegin X "bugcrowd_submit" args),
           (p.sid, .mcpToolCallEnd X res)]).tool_calls = [] := by
  intro p X args res resp ts h1 h2
  have hstep : ∀ (st : DemuxState) (evs : List (String × AgentEvent)) (e : AgentEvent),
      st.task_complete = false →
      collectEvents p st ((p.sid, e) :: evs) = collectEvents p (processEvent p st e) evs := by
    intro st evs e hc
    simp [collectEvents, hc]
  have hb : processEvent p initialDemuxState (.mcpToolCallBegin X "bugcrowd_submit" args)
      = ⟨"", "", [], [⟨X, bugcrowdDenialContent (parse_approval_response resp).2⟩],
          false, [X], [], 0⟩ := by
    simp only [processEvent, h1]
    simp [h2, initialDemuxState]
  have he : processEvent p
        (⟨"", "", [], [⟨X, bugcrowdDenialContent (parse_approval_response resp).2⟩],
          false, [X], [], 0⟩ : DemuxState) (.mcpToolCallEnd X res)
      = ⟨"", "", [], [⟨X, bugcrowdDenialContent (parse_approval_response resp).2⟩],
          false, [X], [], 0⟩ := by
    simp [processEvent, memStr]
  have hrun : collectEvents p initialDemuxState
      [(p.sid, .mcpToolCallBegin X "bugcrowd_submit" args), (p.sid, .mcpToolCallEnd X res)]
      = ⟨"", "", [], [⟨X, bugcrowdDenialContent (parse_approval_response resp).2⟩],
          false, [X], [], 0⟩ := by
    rw [hstep _ _ _ rfl, hb, hstep _ _ _ rfl, he]
    rfl
  rw [hrun]
  exact ⟨rfl, rfl⟩

/-- C3 witness: the concrete denial scenario. -/
theorem bugcrowd_denied_once_witness :
    (collectEvents pC3 initialDemuxState
        [(pC3.sid, .mcpToolCallBegin "X1" "bugcrowd_submit" none),
         (pC3.sid, .mcpToolCallEnd "X1" (.ok "r"))]).tool_responses
      = [⟨"X1", bugcrowdDenialContent (parse_approval_response "DENY - bad").2⟩]
    ∧ (collectEvents pC3 initialDemuxState
        [(pC3.sid, .mcpToolCallBegin "X1" "bugcrowd_submit" none),
         (pC3.sid, .mcpToolCallEnd "X1" (.ok "r"))]).tool_calls = [] :=
  bugcrowd_denied_once pC3 "X1" none (.ok "r") "DENY - bad" [] rfl rfl

/-! ## Claim C10: driver failure inside the approval gates -/

/-- C10.  A driver-transport failure inside any approval gate is never
propagated: the exec and patch gates resolve to Denied and submit that
decision, and the bugcrowd gate records a single failure tool response
while suppressing the tool-call record; in all three cases the resulting
state differs from the input state only by those appends, so event
processing continues. -/
theorem approval_gate_failure_denies :
    ∀ (p : DemuxParams) (st : DemuxState) (command : List String) (cwd : String)
      (reasonE : Option String) (changes : List (String × String)) (reasonP : Option String)
      (X : String) (args : Option Json) (e1 e2 e3 : String),
      generate_user_prompt p.env p.d
          (inject_approval_variables_with_context p.approvalTemplate command cwd reasonE
            p.configContent) = Except.error e1 →
      generate_user_prompt p.env p.d
          (inject_patch_approval_variables_with_context p.approvalTemplate changes reasonP
            p.configContent) = Except.error e2 →
      generate_user_prompt p.env p.d
          (inject_bugcrowd_approval_variables p.bugcrowdTemplate "bugcrowd_submit" args)
        = Except.error e3 →
      processEvent p st (.execApprovalRequest command cwd reasonE)
        = { st with
            ctr := st.ctr + 1,
            tool_calls := st.tool_calls ++ [execApprovalCall st.ctr command cwd reasonE],
            tool_responses := st.tool_responses
              ++ [⟨approvalId st.ctr, execDecisionContent .Denied⟩],
            submitted := st.submitted ++ [.execApproval p.sid .Denied] }
      ∧ processEvent p st (.applyPatchApprovalRequest changes reasonP)
        = { st with
            ctr := st.ctr + 1,
            tool_calls := st.tool_calls ++ [patchApprovalCall st.ctr changes reasonP],
            tool_responses := st.tool_responses
              ++ [⟨patchApprovalId st.ctr, patchDecisionContent .Denied⟩],
            submitted := st.submitted ++ [.patchApproval p.sid .Denied] }
      ∧ processEvent p st (.mcpToolCallBegin X "bugcrowd_submit" args)
        = { st with tool_responses := st.tool_responses ++ [⟨X, bugcrowdErrorContent e3⟩] } := by
  intro p st command cwd reasonE changes reasonP X args e1 e2 e3 h1 h2 h3
  refine ⟨?_, ?_, ?_⟩
  · simp only [processEvent, h1, gateDecision]
  · simp only [processEvent, h2, gateDecision]
  · simp [processEvent, h3]

/-- C10 witness: the failing-transport driver yields Denied on a concrete
exec approval request. -/
theorem approval_gate_failure_denies_witness :
    processEvent pC10 initialDemuxState (.execApprovalRequest ["rm"] "/w" none)
      = { initialDemuxState with
          ctr := initialDemuxState.ctr + 1,
          tool_calls := initialDemuxState.tool_calls
            ++ [execApprovalCall initialDemuxState.ctr ["rm"] "/w" none],
          tool_responses := initialDemuxState.tool_responses
            ++ [⟨approvalId initialDemuxState.ctr, execDecisionContent .Denied⟩],
          submitted := initialDemuxState.submitted ++ [.execApproval pC10.sid .Denied] } :=
  (approval_gate_failure_denies pC10 initialDemuxState ["rm"] "/w" none [("f", "c")] none
    "X" none "boom" "boom" "boom" rfl rfl rfl).1

/-! ## Claim C8: summarisation replaces the context only -/

/-- C8.  When the summariser ran in an iteration, the conversation log is
only appended to (the summarisation step rewrites nothing), and the
end-of-iteration context is the summary - extended by the follow-up
exchange when the supervisor made tool calls - rather than a re-rendering
of the log. -/
theorem summarisation_preserves_log :
    ∀ (p : LoopParams) (inp : IterInputs) (st : LoopState) (r : IterOut),
      iterationStep p inp st = Except.ok r →
      r.summarized = true →
      ∃ summary,
        summarize_context p.env p.d p.summarizationTemplate st.context = Except.ok summary
        ∧ (∃ t, r.state.conversation_log = st.conversation_log ++ t)
        ∧ (r.state.context = summary
            ∨ ∃ fup, r.state.context
                = summary ++ "\n\nUSER: " ++ fup ++ "\n\nASSISTANT: " ++ fup) := by
  intro p inp st r h hs
  unfold iterationStep at h
  cases hpc : prepareContext p st.context with
  | error e => simp only [hpc] at h; cases h
  | ok fcb =>
    obtain ⟨fc, b⟩ := fcb
    simp only [hpc] at h
    split at h
    · cases h
    · cases hg : generate_user_prompt p.env p.d
          (inject_template_variables (templateFor p (st.iteration + 1))
            p.configContent fc) with
      | error e => simp only [hg] at h; cases h
      | ok upr =>
        simp only [hg] at h
        cases hsp : supervisorPhase p fc upr.1 upr.2 with
        | error e => simp only [hsp] at h; cases h
        | ok sup =>
          simp only [hsp] at h
          cases h
          have hb : b = true := hs
          subst hb
          unfold prepareContext at hpc
          split at hpc
          · cases hsum : summarize_context p.env p.d p.summarizationTemplate st.context with
            | error e => simp only [hsum] at hpc; cases hpc
            | ok s =>
              simp only [hsum] at hpc
              cases hpc
              refine ⟨fc, rfl, ⟨_, rfl⟩, ?_⟩
              unfold supervisorPhase at hsp
              split at hsp
              · cases hsp
                left
                rfl
              · cases hfu : generate_user_prompt p.env p.d
                    (inject_template_variables p.continuationTemplate p.configContent
                      (fc ++ "\n\nTool Results:\n" ++ prettyToolResults upr.2)) with
                | error e => simp only [hfu] at hsp; cases hsp
                | ok pr =>
                  simp only [hfu] at hsp
                  cases hsp
                  right
                  exact ⟨pr.1, rfl⟩
          · cases hpc

/-- C8 witness: the seeded 199501-token context triggers the summariser and
the theorem's conclusion holds on the resulting concrete iteration. -/
theorem summarisation_preserves_log_witness :
    ∃ summary,
      summarize_context pC8.env pC8.d pC8.summarizationTemplate stC8.context = Except.ok summary
      ∧ (∃ t, (getOk iterOutDflt (iterationStep pC8 inpC8 stC8)).state.conversation_log
          = stC8.conversation_log ++ t)
      ∧ ((getOk iterOutDflt (iterationStep pC8 inpC8 stC8)).state.context = summary
          ∨ ∃ fup, (getOk iterOutDflt (iterationStep pC8 inpC8 stC8)).state.context
              = summary ++ "\n\nUSER: " ++ fup ++ "\n\nASSISTANT: " ++ fup) :=
  summarisation_preserves_log pC8 inpC8 stC8
    (getOk iterOutDflt (iterationStep pC8 inpC8 stC8)) rfl rfl

/-! ## Claim C5: tool records and their announcing tool calls -/

/-- C5 counterexample.  An iteration containing a denied bugcrowd
submission produces a conversation log whose synthetic denial tool record
cites a call id that appears in no preceding tool_calls entry: the strict
coverage invariant fails on a log the loop actually produces. -/
theorem bugcrowd_denial_breaks_strict_coverage :
    iterationStep pC5 inpC5 stC5 = Except.ok (getOk iterOutDflt (iterationStep pC5 inpC5 stC5))
    ∧ logToolCovered true
        (getOk iterOutDflt (iterationStep pC5 inpC5 stC5)).state.conversation_log = false :=
  ⟨rfl, rfl⟩

theorem memStr_cons_mono (x y : String) (l1 l2 : List String)
    (hm : ∀ z, memStr z l1 = true → memStr z l2 = true) :
    memStr x (y :: l1) = true → memStr x (y :: l2) = true := by
  intro h
  by_cases hxy : x = y
  · simp [memStr, hxy]
  · simp only [memStr, if_neg hxy] at h ⊢
    exact hm x h

theorem memStr_step_mono (b : Bool) (i : String) (mk mk2 : List String)
    (hm : ∀ z, memStr z mk = true → memStr z mk2 = true) :
    ∀ x, memStr x (if b then i :: mk else mk) = true →
      memStr x (if b then i :: mk2 else mk2) = true := by
  intro x
  cases b with
  | true => simpa using memStr_cons_mono x i mk mk2 hm
  | false => simpa using hm x

theorem respChainOk_mono :
    ∀ (rs : List ToolRespRec) (cids cids2 mk mk2 : List String),
      respChainOk cids mk rs = true →
      (∀ x, memStr x cids = true → memStr x cids2 = true) →
      (∀ x, memStr x mk = true → memStr x mk2 = true) →
      respChainOk cids2 mk2 rs = true := by
  intro rs
  induction rs with
  | nil => intro _ _ _ _ _ _ _; rfl
  | cons r rest ih =>
    intro cids cids2 mk mk2 h hc hm
    simp only [respChainOk] at h ⊢
    rw [Bool.and_eq_true] at h ⊢
    obtain ⟨h1, h2⟩ := h
    constructor
    · rw [Bool.or_eq_true] at h1 ⊢
      rcases h1 with hx | hx
      · exact Or.inl (hc _ hx)
      · exact Or.inr (memStr_step_mono _ _ _ _ hm _ hx)
    · exact ih _ _ _ _ h2 hc (memStr_step_mono _ _ _ _ hm)

theorem pushMarked_append :
    ∀ (rs1 rs2 : List ToolRespRec) (mk : List String),
      pushMarked mk (rs1 ++ rs2) = pushMarked (pushMarked mk rs1) rs2 := by
  intro rs1
  induction rs1 with
  | nil => intro rs2 mk; rfl
  | cons r rest ih =>
    intro rs2 mk
    simp only [List.cons_append, pushMarked]
    exact ih rs2 _

theorem memStr_pushMarked_of :
    ∀ (rs : List ToolRespRec) (mk : List String) (x : String),
      memStr x mk = true → memStr x (pushMarked mk rs) = true := by
  intro rs
  induction rs with
  | nil => intro mk x h; exact h
  | cons r rest ih =>
    intro mk x h
    simp only [pushMarked]
    apply ih
    by_cases hb : isBugcrowdSynthetic r.content = true
    · simp only [hb, if_true]
      exact memStr_cons_of _ _ _ h
    · rw [Bool.not_eq_true] at hb
      simp only [hb, Bool.false_eq_true, if_false]
      exact h

theorem respChainOk_append :
    ∀ (rs1 rs2 : List ToolRespRec) (cids mk : List String),
      respChainOk cids mk (rs1 ++ rs2)
        = (respChainOk cids mk rs1 && respChainOk cids (pushMarked mk rs1) rs2) := by
  intro rs1
  induction rs1 with
  | nil => intro rs2 cids mk; simp [respChainOk, pushMarked]
  | cons r rest ih =>
    intro rs2 cids mk
    simp only [List.cons_append, respChainOk, pushMarked, List.append_eq]
    rw [ih, Bool.and_assoc]

theorem respChainOk_push (cids mk : List String) (rs : List ToolRespRec) (i c : String)
    (h : respChainOk cids mk rs = true)
    (hcov : memStr i cids = true ∨ memStr i (pushMarked mk rs) = true
      ∨ isBugcrowdSynthetic c = true) :
    respChainOk cids mk (rs ++ [⟨i, c⟩]) = true := by
  rw [respChainOk_append, Bool.and_eq_true]
  refine ⟨h, ?_⟩
  simp only [respChainOk]
  rw [Bool.and_eq_true]
  refine ⟨?_, rfl⟩
  rw [Bool.or_eq_true]
  rcases hcov with hx | hx | hx
  · exact Or.inl hx
  · right
    by_cases hb : isBugcrowdSynthetic (⟨i, c⟩ : ToolRespRec).content = true
    · simp only [hb, if_true]
      exact memStr_cons_of _ _ _ hx
    · rw [Bool.not_eq_true] at hb
      simp only [hb, Bool.false_eq_true, if_false]
      exact hx
  · right
    have hb : isBugcrowdSynthetic (⟨i, c⟩ : ToolRespRec).content = true := hx
    simp only [hb, if_true]
    exact memStr_cons_self _ _

theorem memStr_pushMarked_single (mk : List String) (r : ToolRespRec) (x : String)
    (h : memStr x mk = true) : memStr x (pushMarked mk [r]) = true := by
  simp only [pushMarked]
  by_cases hb : isBugcrowdSynthetic r.content = true
  · simp only [hb, if_true]
    exact memStr_cons_of _ _ _ h
  · rw [Bool.not_eq_true] at hb
    simp only [hb, Bool.false_eq_true, if_false]
    exact h

theorem callIds_append (st st2 : DemuxState) (tc : ToolCallRec)
    (h : st2.tool_calls = st.tool_calls ++ [tc]) :
    callIds st2 = callIds st ++ [tc.id] := by
  simp [callIds, h]

theorem inv_same_lists (st st2 : DemuxState) (covered : List String)
    (h1 : st2.tool_calls = st.tool_calls)
    (h2 : st2.tool_responses = st.tool_responses)
    (h3 : st2.denied_tool_calls = st.denied_tool_calls)
    (k1 : demuxRespOk st) (k2 : demuxDeniedOk st) (k3 : demuxCoveredOk st covered) :
    demuxRespOk st2 ∧ demuxDeniedOk st2 ∧ demuxCoveredOk st2 covered := by
  refine ⟨?_, ?_, ?_⟩
  · unfold demuxRespOk callIds at k1 ⊢
    rw [h1, h2]; exact k1
  · unfold demuxDeniedOk at k2 ⊢
    rw [h2, h3]; exact k2
  · unfold demuxCoveredOk callIds at k3 ⊢
    rw [h1, h2]; exact k3

theorem inv_push_call (st st2 : DemuxState) (tc : ToolCallRec) (covered : List String)
    (h1 : st2.tool_calls = st.tool_calls ++ [tc])
    (h2 : st2.tool_responses = st.tool_responses)
    (h3 : st2.denied_tool_calls = st.denied_tool_calls)
    (k1 : demuxRespOk st) (k2 : demuxDeniedOk st) (k3 : demuxCoveredOk st covered) :
    demuxRespOk st2 ∧ demuxDeniedOk st2 ∧ demuxCoveredOk st2 (tc.id :: covered)
      ∧ demuxCoveredOk st2 covered := by
  have hcal := callIds_append st st2 tc h1
  have hcov : demuxCoveredOk st2 covered := by
    unfold demuxCoveredOk at k3 ⊢
    intro x hx
    rw [hcal, h2]
    rcases k3 x hx with hy | hy
    · left; rw [memStr_append, hy]; rfl
    · right; exact hy
  refine ⟨?_, ?_, ?_, hcov⟩
  · unfold demuxRespOk at k1 ⊢
    rw [hcal, h2]
    refine respChainOk_mono _ _ _ _ _ k1 ?_ (fun x hx => hx)
    intro x hx
    rw [memStr_append, hx]; rfl
  · unfold demuxDeniedOk at k2 ⊢
    rw [h2, h3]; exact k2
  · unfold demuxCoveredOk at hcov ⊢
    intro x hx
    by_cases hxi : x = tc.id
    · left
      rw [hcal, memStr_append, hxi]
      simp [memStr_cons_self]
    · simp only [memStr, if_neg hxi] at hx
      exact hcov x hx

theorem inv_push_resp (st st2 : DemuxState) (i c : String) (covered : List String)
    (h1 : st2.tool_calls = st.tool_calls)
    (h2 : st2.tool_responses = st.tool_responses ++ [⟨i, c⟩])
    (h3 : st2.denied_tool_calls = st.denied_tool_calls)
    (k1 : demuxRespOk st) (k2 : demuxDeniedOk st) (k3 : demuxCoveredOk st covered)
    (hcov : memStr i (callIds st) = true
      ∨ memStr i (pushMarked [] st.tool_responses) = true
      ∨ isBugcrowdSynthetic c = true) :
    demuxRespOk st2 ∧ demuxDeniedOk st2 ∧ demuxCoveredOk st2 covered := by
  have hcal : callIds st2 = callIds st := by simp [callIds, h1]
  refine ⟨?_, ?_, ?_⟩
  · unfold demuxRespOk at k1 ⊢
    rw [hcal, h2]
    exact respChainOk_push _ _ _ _ _ k1 hcov
  · unfold demuxDeniedOk at k2 ⊢
    intro x hx
    rw [h2, pushMarked_append]
    rw [h3] at hx
    exact memStr_pushMarked_single _ _ _ (k2 x hx)
  · unfold demuxCoveredOk at k3 ⊢
    intro x hx
    rcases k3 x hx with hy | hy
    · left; rw [hcal]; exact hy
    · right
      rw [h2, pushMarked_append]
      exact memStr_pushMarked_single _ _ _ hy

theorem coveredOk_cons_marked (st2 : DemuxState) (st : DemuxState) (i c : String)
    (covered : List String)
    (h2 : st2.tool_responses = st.tool_responses ++ [⟨i, c⟩])
    (hm : isBugcrowdSynthetic c = true)
    (hc : demuxCoveredOk st2 covered) :
    demuxCoveredOk st2 (i :: covered) := by
  unfold demuxCoveredOk at hc ⊢
  intro x hx
  by_cases hxi : x = i
  · right
    rw [h2, pushMarked_append, hxi]
    have : pushMarked (pushMarked [] st.tool_responses) [(⟨i, c⟩ : ToolRespRec)]
        = i :: pushMarked [] st.tool_responses := by
      simp only [pushMarked]
      simp [hm]
    rw [this]
    exact memStr_cons_self _ _
  · simp only [memStr, if_neg hxi] at hx
    exact hc x hx

theorem inv_deny (st st2 : DemuxState) (i c : String) (covered : List String)
    (h1 : st2.tool_calls = st.tool_calls)
    (h2 : st2.tool_responses = st.tool_responses ++ [⟨i, c⟩])
    (h3 : st2.denied_tool_calls = i :: st.denied_tool_calls)
    (hm : isBugcrowdSynthetic c = true)
    (k1 : demuxRespOk st) (k2 : demuxDeniedOk st) (k3 : demuxCoveredOk st covered) :
    demuxRespOk st2 ∧ demuxDeniedOk st2 ∧ demuxCoveredOk st2 (i :: covered) := by
  obtain ⟨j1, j2, j3⟩ := inv_push_resp st
    { st2 with denied_tool_calls := st.denied_tool_calls } i c covered h1 h2 rfl
    k1 k2 k3 (Or.inr (Or.inr hm))
  have hpm : memStr i (pushMarked [] st2.tool_responses) = true := by
    rw [h2, pushMarked_append]
    have : pushMarked (pushMarked [] st.tool_responses) [(⟨i, c⟩ : ToolRespRec)]
        = i :: pushMarked [] st.tool_responses := by
      simp only [pushMarked]
      simp [hm]
    rw [this]
    exact memStr_cons_self _ _
  refine ⟨j1, ?_, ?_⟩
  · unfold demuxDeniedOk at j2 ⊢
    intro x hx
    rw [h3] at hx
    by_cases hxi : x = i
    · rw [hxi]; exact hpm
    · simp only [memStr, if_neg hxi] at hx
      exact j2 x hx
  · unfold demuxCoveredOk at j3 ⊢
    intro x hx
    by_cases hxi : x = i
    · right; rw [hxi]; exact hpm
    · simp only [memStr, if_neg hxi] at hx
      exact j3 x hx

theorem inv_push_call_resp (st st2 : DemuxState) (tc : ToolCallRec) (c : String)
    (covered : List String)
    (h1 : st2.tool_calls = st.tool_calls ++ [tc])
    (h2 : st2.tool_responses = st.tool_responses ++ [⟨tc.id, c⟩])
    (h3 : st2.denied_tool_calls = st.denied_tool_calls)
    (k1 : demuxRespOk st) (k2 : demuxDeniedOk st) (k3 : demuxCoveredOk st covered) :
    demuxRespOk st2 ∧ demuxDeniedOk st2 ∧ demuxCoveredOk st2 covered := by
  have hcal := callIds_append st st2 tc h1
  refine ⟨?_, ?_, ?_⟩
  · unfold demuxRespOk at k1 ⊢
    rw [hcal, h2]
    refine respChainOk_push _ _ _ _ _ ?_ ?_
    · refine respChainOk_mono _ _ _ _ _ k1 ?_ (fun x hx => hx)
      intro x hx
      rw [memStr_append, hx]; rfl
    · left
      rw [memStr_append]
      simp [memStr_cons_self]
  · unfold demuxDeniedOk at k2 ⊢
    intro x hx
    rw [h2, pushMarked_append]
    rw [h3] at hx
    exact memStr_pushMarked_single _ _ _ (k2 x hx)
  · unfold demuxCoveredOk at k3 ⊢
    intro x hx
    rcases k3 x hx with hy | hy
    · left
      rw [hcal, memStr_append, hy]; rfl
    · right
      rw [h2, pushMarked_append]
      exact memStr_pushMarked_single _ _ _ hy

theorem denial_marked (r : String) :
    isBugcrowdSynthetic (bugcrowdDenialContent r) = true := by
  unfold isBugcrowdSynthetic bugcrowdDenialContent
  rw [Bool.or_eq_true]
  left
  unfold startsList
  rw [show ("❌ Bugcrowd submission denied by security review: " ++ r).data
      = "❌ Bugcrowd submission denied by security review: ".data ++ r.data from rfl]
  simp [List.isPrefixOf_iff_prefix]

theorem error_marked (e : String) :
    isBugcrowdSynthetic (bugcrowdErrorContent e) = true := by
  unfold isBugcrowdSynthetic bugcrowdErrorContent
  rw [Bool.or_eq_true]
  right
  unfold startsList
  rw [show ("❌ Bugcrowd submission failed due to approval error: " ++ e).data
      = "❌ Bugcrowd submission failed due to approval error: ".data ++ e.data from rfl]
  simp [List.isPrefixOf_iff_prefix]

theorem wellPaired_cons_self (sid : String) (covered : List String) (ev : AgentEvent)
    (rest : List (String × AgentEvent)) :
    wellPaired sid covered ((sid, ev) :: rest)
      = (match endIdOf ev with
        | some i => memStr i covered && wellPaired sid covered rest
        | none =>
          match beginIdOf ev with
          | some i => wellPaired sid (i :: covered) rest
          | none => wellPaired sid covered rest) := by
  simp [wellPaired]

theorem collectEvents_inv :
    ∀ (events : List (String × AgentEvent)) (p : DemuxParams) (st : DemuxState)
      (covered : List String),
      demuxRespOk st → demuxDeniedOk st → demuxCoveredOk st covered →
      wellPaired p.sid covered events = true →
      demuxRespOk (collectEvents p st events) := by
  intro events
  induction events with
  | nil => intro p st covered k1 _ _ _; exact k1
  | cons e rest ih =>
    obtain ⟨eid, ev⟩ := e
    intro p st covered k1 k2 k3 hwp
    by_cases hc : st.task_complete = true
    · have hred : collectEvents p st ((eid, ev) :: rest) = st := by
        simp [collectEvents, hc]
      rw [hred]; exact k1
    · rw [Bool.not_eq_true] at hc
      by_cases hid : eid = p.sid
      · subst hid
        have hred : collectEvents p st ((p.sid, ev) :: rest)
            = collectEvents p (processEvent p st ev) rest := by
          simp [collectEvents, hc]
        rw [hred]
        rw [wellPaired_cons_self] at hwp
        cases ev with
        | agentMessage m =>
          simp only [endIdOf, beginIdOf] at hwp
          obtain ⟨j1, j2, j3⟩ := inv_same_lists st _ covered rfl rfl rfl k1 k2 k3
          exact ih p _ covered j1 j2 j3 hwp
        | agentReasoning t =>
          simp only [endIdOf, beginIdOf] at hwp
          obtain ⟨j1, j2, j3⟩ := inv_same_lists st _ covered rfl rfl rfl k1 k2 k3
          exact ih p _ covered j1 j2 j3 hwp
        | taskComplete =>
          simp only [endIdOf, beginIdOf] at hwp
          obtain ⟨j1, j2, j3⟩ := inv_same_lists st _ covered rfl rfl rfl k1 k2 k3
          exact ih p _ covered j1 j2 j3 hwp
        | errorEvent m =>
          simp only [endIdOf, beginIdOf] at hwp
          obtain ⟨j1, j2, j3⟩ := inv_same_lists st _ covered rfl rfl rfl k1 k2 k3
          exact ih p _ covered j1 j2 j3 hwp
        | otherEvent =>
          simp only [endIdOf, beginIdOf] at hwp
          obtain ⟨j1, j2, j3⟩ := inv_same_lists st _ covered rfl rfl rfl k1 k2 k3
          exact ih p _ covered j1 j2 j3 hwp
        | execCommandBegin cid cmd =>
          simp only [endIdOf, beginIdOf] at hwp
          obtain ⟨j1, j2, j3, _⟩ := inv_push_call st
            (processEvent p st (.execCommandBegin cid cmd))
            ⟨"exec_" ++ cid, "function", "bash", execArgsJson cmd⟩ covered
            rfl rfl rfl k1 k2 k3
          exact ih p _ _ j1 j2 j3 hwp
        | patchApplyBegin cid =>
          simp only [endIdOf, beginIdOf] at hwp
          obtain ⟨j1, j2, j3, _⟩ := inv_push_call st
            (processEvent p st (.patchApplyBegin cid))
            ⟨"patch_" ++ cid, "function", "apply_patch",
              "\x7b\"call_id\":\"" ++ cid ++ "\"\x7d"⟩ covered
            rfl rfl rfl k1 k2 k3
          exact ih p _ _ j1 j2 j3 hwp
        | taskStarted =>
          simp only [endIdOf, beginIdOf] at hwp
          obtain ⟨j1, j2, _, j4⟩ := inv_push_call st
            (processEvent p st .taskStarted)
            ⟨"event_taskstarted_" ++ toString st.ctr, "system", "task_started", "\x7b\x7d"⟩
            covered rfl rfl rfl k1 k2 k3
          exact ih p _ covered j1 j2 j4 hwp
        | tokenCount usage =>
          simp only [endIdOf, beginIdOf] at hwp
          obtain ⟨j1, j2, _, j4⟩ := inv_push_call st
            (processEvent p st (.tokenCount usage))
            ⟨"event_tokencount_" ++ toString st.ctr, "system", "token_count", usage⟩
            covered rfl rfl rfl k1 k2 k3
          exact ih p _ covered j1 j2 j4 hwp
        | backgroundEvent m =>
          simp only [endIdOf, beginIdOf] at hwp
          obtain ⟨j1, j2, _, j4⟩ := inv_push_call st
            (processEvent p st (.backgroundEvent m))
            ⟨"event_background_" ++ toString st.ctr, "system", "background_event",
              "\x7b\"message\":\"" ++ m ++ "\"\x7d"⟩
            covered rfl rfl rfl k1 k2 k3
          exact ih p _ covered j1 j2 j4 hwp
        | execCommandEnd cid code out err =>
          simp only [endIdOf] at hwp
          rw [Bool.and_eq_true] at hwp
          obtain ⟨hmem, hwp⟩ := hwp
          obtain ⟨j1, j2, j3⟩ := inv_push_resp st
            (processEvent p st (.execCommandEnd cid code out err))
            ("exec_" ++ cid) (execResultJson code out err) covered rfl rfl rfl k1 k2 k3
            (by rcases k3 _ hmem with hy | hy
                · exact Or.inl hy
                · exact Or.inr (Or.inl hy))
          exact ih p _ covered j1 j2 j3 hwp
        | patchApplyEnd cid =>
          simp only [endIdOf] at hwp
          rw [Bool.and_eq_true] at hwp
          obtain ⟨hmem, hwp⟩ := hwp
          obtain ⟨j1, j2, j3⟩ := inv_push_resp st
            (processEvent p st (.patchApplyEnd cid))
            ("patch_" ++ cid) ("\x7b\"call_id\":\"" ++ cid ++ "\"\x7d") covered rfl rfl rfl
            k1 k2 k3
            (by rcases k3 _ hmem with hy | hy
                · exact Or.inl hy
                · exact Or.inr (Or.inl hy))
          exact ih p _ covered j1 j2 j3 hwp
        | mcpToolCallEnd cid res =>
          simp only [endIdOf] at hwp
          rw [Bool.and_eq_true] at hwp
          obtain ⟨hmem, hwp⟩ := hwp
          by_cases hd : memStr cid st.denied_tool_calls = true
          · have hpe : processEvent p st (.mcpToolCallEnd cid res) = st := by
              simp [processEvent, hd]
            rw [hpe]
            exact ih p st covered k1 k2 k3 hwp
          · rw [Bool.not_eq_true] at hd
            cases res with
            | ok s =>
              obtain ⟨j1, j2, j3⟩ := inv_push_resp st
                (processEvent p st (.mcpToolCallEnd cid (.ok s))) cid s covered
                (by simp [processEvent, hd]) (by simp [processEvent, hd])
                (by simp [processEvent, hd]) k1 k2 k3
                (by rcases k3 _ hmem with hy | hy
                    · exact Or.inl hy
                    · exact Or.inr (Or.inl hy))
              exact ih p _ covered j1 j2 j3 hwp
            | error err =>
              obtain ⟨j1, j2, j3⟩ := inv_push_resp st
                (processEvent p st (.mcpToolCallEnd cid (.error err))) cid
                ("Error: " ++ err) covered
                (by simp [processEvent, hd]) (by simp [processEvent, hd])
                (by simp [processEvent, hd]) k1 k2 k3
                (by rcases k3 _ hmem with hy | hy
                    · exact Or.inl hy
                    · exact Or.inr (Or.inl hy))
              exact ih p _ covered j1 j2 j3 hwp
        | mcpToolCallBegin cid tool args =>
          simp only [endIdOf, beginIdOf] at hwp
          by_cases ht : tool = "bugcrowd_submit"
          · subst ht
            cases hgen : generate_user_prompt p.env p.d
                (inject_bugcrowd_approval_variables p.bugcrowdTemplate "bugcrowd_submit"
                  args) with
            | ok pr =>
              by_cases hap : (parse_approval_response pr.1).1 = true
              · obtain ⟨j1, j2, j3, _⟩ := inv_push_call st
                  (processEvent p st (.mcpToolCallBegin cid "bugcrowd_submit" args))
                  ⟨cid, "function", "bugcrowd_submit", mcpArgsStr args⟩ covered
                  (by simp [processEvent, hgen, hap]) (by simp [processEvent, hgen, hap])
                  (by simp [processEvent, hgen, hap]) k1 k2 k3
                exact ih p _ _ j1 j2 j3 hwp
              · rw [Bool.not_eq_true] at hap
                obtain ⟨j1, j2, j3⟩ := inv_deny st
                  (processEvent p st (.mcpToolCallBegin cid "bugcrowd_submit" args)) cid
                  (bugcrowdDenialContent (parse_approval_response pr.1).2) covered
                  (by simp [processEvent, hgen, hap]) (by simp [processEvent, hgen, hap])
                  (by simp [processEvent, hgen, hap]) (denial_marked _) k1 k2 k3
                exact ih p _ _ j1 j2 j3 hwp
            | error e =>
              obtain ⟨j1, j2, j3⟩ := inv_push_resp st
                (processEvent p st (.mcpToolCallBegin cid "bugcrowd_submit" args)) cid
                (bugcrowdErrorContent e) covered
                (by simp [processEvent, hgen]) (by simp [processEvent, hgen])
                (by simp [processEvent, hgen]) k1 k2 k3
                (Or.inr (Or.inr (error_marked e)))
              have j3c := coveredOk_cons_marked
                (processEvent p st (.mcpToolCallBegin cid "bugcrowd_submit" args)) st cid
                (bugcrowdErrorContent e) covered
                (by simp [processEvent, hgen]) (error_marked e) j3
              exact ih p _ _ j1 j2 j3c hwp
          · obtain ⟨j1, j2, j3, _⟩ := inv_push_call st
              (processEvent p st (.mcpToolCallBegin cid tool args))
              ⟨cid, "function", tool, mcpArgsStr args⟩ covered
              (by simp [processEvent, ht]) (by simp [processEvent, ht])
              (by simp [processEvent, ht]) k1 k2 k3
            exact ih p _ _ j1 j2 j3 hwp
        | execApprovalRequest cmd cwd reason =>
          simp only [endIdOf, beginIdOf] at hwp
          obtain ⟨j1, j2, j3⟩ := inv_push_call_resp st
            (processEvent p st (.execApprovalRequest cmd cwd reason))
            (execApprovalCall st.ctr cmd cwd reason)
            (execDecisionContent (gateDecision (generate_user_prompt p.env p.d
              (inject_approval_variables_with_context p.approvalTemplate cmd cwd reason
                p.configContent)))) covered rfl rfl rfl k1 k2 k3
          exact ih p _ covered j1 j2 j3 hwp
        | applyPatchApprovalRequest changes reason =>
          simp only [endIdOf, beginIdOf] at hwp
          obtain ⟨j1, j2, j3⟩ := inv_push_call_resp st
            (processEvent p st (.applyPatchApprovalRequest changes reason))
            (patchApprovalCall st.ctr changes reason)
            (patchDecisionContent (gateDecision (generate_user_prompt p.env p.d
              (inject_patch_approval_variables_with_context p.approvalTemplate changes reason
                p.configContent)))) covered rfl rfl rfl k1 k2 k3
          exact ih p _ covered j1 j2 j3 hwp
      · have hred : collectEvents p st ((eid, ev) :: rest) = collectEvents p st rest := by
          simp [collectEvents, hc, hid]
        have hwp' : wellPaired p.sid covered rest = true := by
          unfold wellPaired at hwp
          simp [hid] at hwp
          exact hwp
        rw [hred]
        exact ih p st covered k1 k2 k3 hwp'

theorem logCoveredAux_mono :
    ∀ (xs : List LogMsg) (seen seen2 mk mk2 : List String),
      logCoveredAux false seen mk xs = true →
      (∀ x, memStr x seen = true → memStr x seen2 = true) →
      (∀ x, memStr x mk = true → memStr x mk2 = true) →
      logCoveredAux false seen2 mk2 xs = true := by
  intro xs
  induction xs with
  | nil => intro _ _ _ _ _ _ _; rfl
  | cons m rest ih =>
    intro seen seen2 mk mk2 h hs hm
    cases m
    case tool i c =>
      simp only [logCoveredAux] at h ⊢
      rw [Bool.and_eq_true] at h ⊢
      obtain ⟨h1, h2⟩ := h
      constructor
      · rw [Bool.or_eq_true] at h1 ⊢
        rcases h1 with hx | hx
        · exact Or.inl (hs _ hx)
        · right
          simp only [Bool.not_false, Bool.true_and] at hx ⊢
          exact memStr_step_mono _ _ _ _ hm _ hx
      · exact ih _ _ _ _ h2 hs (memStr_step_mono _ _ _ _ hm)
    all_goals
      simp only [logCoveredAux] at h ⊢
      refine ih _ _ _ _ h ?_ hm
      intro x hx
      rw [memStr_append] at hx ⊢
      rw [Bool.or_eq_true] at hx ⊢
      rcases hx with hx | hx
      · exact Or.inl hx
      · exact Or.inr (hs _ hx)

theorem logCoveredAux_append :
    ∀ (xs ys : List LogMsg) (strict : Bool) (seen mk : List String),
      logCoveredAux strict seen mk xs = true →
      logCoveredAux strict (seenAccL seen xs) (mkAccL mk xs) ys = true →
      logCoveredAux strict seen mk (xs ++ ys) = true := by
  intro xs
  induction xs with
  | nil => intro ys strict seen mk _ h2; exact h2
  | cons m rest ih =>
    intro ys strict seen mk h1 h2
    cases m
    case tool i c =>
      simp only [seenAccL, mkAccL] at h2
      simp only [logCoveredAux, List.cons_append] at h1 ⊢
      rw [Bool.and_eq_true] at h1 ⊢
      exact ⟨h1.1, ih _ _ _ _ h1.2 h2⟩
    all_goals
      simp only [seenAccL, mkAccL] at h2
      simp only [logCoveredAux, List.cons_append] at h1 ⊢
      exact ih _ _ _ _ h1 h2

theorem respChain_to_log :
    ∀ (rs : List ToolRespRec) (cids mkr seen mk : List String),
      respChainOk cids mkr rs = true →
      (∀ x, memStr x cids = true → memStr x seen = true) →
      (∀ x, memStr x mkr = true → memStr x mk = true) →
      logCoveredAux false seen mk
        (rs.map (fun r => LogMsg.tool r.tool_call_id r.content)) = true := by
  intro rs
  induction rs with
  | nil => intro _ _ _ _ _ _ _; rfl
  | cons r rest ih =>
    intro cids mkr seen mk h hc hm
    simp only [List.map_cons, logCoveredAux]
    simp only [respChainOk] at h
    rw [Bool.and_eq_true] at h ⊢
    obtain ⟨h1, h2⟩ := h
    constructor
    · rw [Bool.or_eq_true] at h1 ⊢
      rcases h1 with hx | hx
      · exact Or.inl (hc _ hx)
      · right
        simp only [Bool.not_false, Bool.true_and]
        exact memStr_step_mono _ _ _ _ hm _ hx
    · exact ih _ _ _ _ h2 hc (memStr_step_mono _ _ _ _ hm)

theorem allIds_to_log :
    ∀ (trs : List ToolResult) (seen mk : List String),
      (∀ tr, tr ∈ trs → memStr tr.tool_call_id seen = true) →
      logCoveredAux false seen mk
        (trs.map (fun tr => LogMsg.tool tr.tool_call_id tr.content)) = true := by
  intro trs
  induction trs with
  | nil => intro _ _ _; rfl
  | cons tr rest ih =>
    intro seen mk hall
    simp only [List.map_cons, logCoveredAux]
    rw [Bool.and_eq_true]
    constructor
    · rw [Bool.or_eq_true]
      exact Or.inl (hall tr (List.mem_cons_self tr rest))
    · exact ih _ _ (fun t ht => hall t (List.mem_cons_of_mem _ ht))

theorem seenAccL_tool_map (rs : List ToolRespRec) :
    ∀ seen, seenAccL seen (rs.map (fun r => LogMsg.tool r.tool_call_id r.content)) = seen := by
  induction rs with
  | nil => intro seen; rfl
  | cons r rest ih => intro seen; simp only [List.map_cons, seenAccL]; exact ih seen

theorem seenAccL_result_map (trs : List ToolResult) :
    ∀ seen, seenAccL seen (trs.map (fun tr => LogMsg.tool tr.tool_call_id tr.content)) = seen := by
  induction trs with
  | nil => intro seen; rfl
  | cons tr rest ih => intro seen; simp only [List.map_cons, seenAccL]; exact ih seen

theorem memStr_map_tool_call_id :
    ∀ (trs : List ToolResult) (tr : ToolResult), tr ∈ trs →
      memStr tr.tool_call_id (trs.map ToolResult.tool_call_id) = true := by
  intro trs
  induction trs with
  | nil => intro tr h; cases h
  | cons a rest ih =>
    intro tr h
    simp only [List.map_cons]
    rcases List.mem_cons.mp h with h | h
    · rw [h]; exact memStr_cons_self _ _
    · exact memStr_cons_of _ _ _ (ih tr h)

theorem mirror_ids (trs : List ToolResult) :
    (mirrorToolCalls trs).map ToolCallRec.id = trs.map ToolResult.tool_call_id := by
  induction trs with
  | nil => rfl
  | cons a rest ih =>
    simp only [mirrorToolCalls, List.map_cons] at ih ⊢
    rw [ih]

theorem supervisorPhase_covered :
    ∀ (p : LoopParams) (fc up : String) (trs : List ToolResult)
      (out : List LogMsg × String × String),
      supervisorPhase p fc up trs = Except.ok out →
      ∀ seen mk, logCoveredAux false seen mk out.1 = true := by
  intro p fc up trs out h seen mk
  unfold supervisorPhase at h
  split at h
  · cases h
    rfl
  · cases hfu : generate_user_prompt p.env p.d
        (inject_template_variables p.continuationTemplate p.configContent
          (fc ++ "\n\nTool Results:\n" ++ prettyToolResults trs)) with
    | error e => simp only [hfu] at h; cases h
    | ok pr =>
      simp only [hfu] at h
      cases h
      simp only [List.cons_append]
      simp only [logCoveredAux, msgCallIds]
      refine logCoveredAux_append _ _ _ _ _ ?_ ?_
      · refine allIds_to_log _ _ _ ?_
        intro tr ht
        rw [mirror_ids, memStr_append, Bool.or_eq_true]
        exact Or.inl (memStr_map_tool_call_id trs tr ht)
      · rfl

theorem seenAccL_append :
    ∀ (xs ys : List LogMsg) (seen : List String),
      seenAccL seen (xs ++ ys) = seenAccL (seenAccL seen xs) ys := by
  intro xs
  induction xs with
  | nil => intro ys seen; rfl
  | cons m rest ih =>
    intro ys seen
    cases m
    case tool i c => simp only [List.cons_append, seenAccL]; exact ih ys seen
    all_goals simp only [List.cons_append, seenAccL]; exact ih ys _

theorem agentRecords_covered :
    ∀ (out : String × List ToolCallRec × Option String × List ToolRespRec)
      (seen mk : List String),
      respChainOk (out.2.1.map ToolCallRec.id) [] out.2.2.2 = true →
      logCoveredAux false seen mk (agentRecords out) = true := by
  intro out seen mk hchain
  obtain ⟨resp, calls, reas, resps⟩ := out
  dsimp only at hchain
  unfold agentRecords
  dsimp only
  refine logCoveredAux_append _ _ _ _ _ ?_ ?_
  · refine logCoveredAux_append _ _ _ _ _ ?_ ?_
    · refine logCoveredAux_append _ _ _ _ _ ?_ ?_
      · cases reas with
        | none => rfl
        | some rt => rfl
      · by_cases hcalls : calls.isEmpty = true
        · rw [if_pos hcalls]; rfl
        · rw [if_neg hcalls]; rfl
    · refine respChain_to_log _ (calls.map ToolCallRec.id) [] _ _ hchain ?_ ?_
      · intro x hx
        rw [seenAccL_append]
        have hR : seenAccL seen (match reas with
            | some rt => [LogMsg.assistantReasoning rt]
            | none => []) = seen := by
          cases reas with
          | none => rfl
          | some rt => rfl
        rw [hR]
        by_cases hcalls : calls.isEmpty = true
        · have hnil : calls = [] := by
            cases calls with
            | nil => rfl
            | cons a as => simp [List.isEmpty] at hcalls
          rw [hnil] at hx
          simp [memStr] at hx
        · rw [if_neg hcalls]
          rw [show seenAccL seen [LogMsg.assistantToolCalls calls]
              = calls.map ToolCallRec.id ++ seen from rfl]
          rw [memStr_append, Bool.or_eq_true]
          exact Or.inl hx
      · intro x hx
        simp [memStr] at hx
  · rfl

theorem agentPhase_covered :
    ∀ (p : LoopParams) (inp : IterInputs) (seen mk : List String),
      wellPaired inp.sid [] inp.events = true →
      logCoveredAux false seen mk (agentPhase p inp) = true := by
  intro p inp seen mk hwp
  have hinv : demuxRespOk
      (collectEvents (demuxParamsOf p inp.sid) initialDemuxState inp.events) := by
    refine collectEvents_inv inp.events (demuxParamsOf p inp.sid) initialDemuxState []
      ?_ ?_ ?_ hwp
    · rfl
    · intro x hx; simp [initialDemuxState, memStr] at hx
    · intro x hx; simp [memStr] at hx
  unfold agentPhase
  exact agentRecords_covered _ seen mk hinv

/-- C5 amended.  In every conversation log the loop produces from a
well-paired event stream (each end event preceded by its begin event) out of
a log already satisfying the invariant, every tool record either cites a
tool_call id announced by an earlier assistant or user tool_calls entry, or
shares its call id with a preceding-or-same synthetic bugcrowd
denial/approval-error response - the only exceptions, introduced by the
bugcrowd gate, which records denials and approval failures without a
matching tool call. -/
theorem tool_records_covered_except_bugcrowd :
    ∀ (p : LoopParams) (inp : IterInputs) (st : LoopState) (r : IterOut),
      iterationStep p inp st = Except.ok r →
      wellPaired inp.sid [] inp.events = true →
      logToolCovered false st.conversation_log = true →
      logToolCovered false r.state.conversation_log = true := by
  intro p inp st r h hwp hold
  unfold iterationStep at h
  cases hpc : prepareContext p st.context with
  | error e => simp only [hpc] at h; cases h
  | ok fcb =>
    simp only [hpc] at h
    split at h
    · cases h
    · cases hg : generate_user_prompt p.env p.d
          (inject_template_variables (templateFor p (st.iteration + 1))
            p.configContent fcb.1) with
      | error e => simp only [hg] at h; cases h
      | ok upr =>
        simp only [hg] at h
        cases hsp : supervisorPhase p fcb.1 upr.1 upr.2 with
        | error e => simp only [hsp] at h; cases h
        | ok sup =>
          simp only [hsp] at h
          cases h
          unfold logToolCovered at hold ⊢
          refine logCoveredAux_append _ _ _ _ _ hold ?_
          refine logCoveredAux_mono (sup.1 ++ agentPhase p inp) [] _ [] _ ?_ ?_ ?_
          · refine logCoveredAux_append _ _ _ _ _ ?_ ?_
            · exact supervisorPhase_covered p fcb.1 upr.1 upr.2 sup hsp [] []
            · exact agentPhase_covered p inp _ _ hwp
          · intro x hx; simp [memStr] at hx
          · intro x hx; simp [memStr] at hx

/-- C5 amended witness: the denial iteration satisfies the permissive
coverage invariant. -/
theorem tool_records_covered_except_bugcrowd_witness :
    logToolCovered false
      (getOk iterOutDflt (iterationStep pC5 inpC5 stC5)).state.conversation_log = true :=
  tool_records_covered_except_bugcrowd pC5 inpC5 stC5
    (getOk iterOutDflt (iterationStep pC5 inpC5 stC5)) rfl rfl rfl

end Artemis
